import Mathlib

/-!
Verification development for the whisk build-configuration tool
(src/whisk.py).  The `configure` entry point is shallowly embedded as a
pure function from the parsed configuration document, the on-disk cache
state and the command-line arguments to a run result consisting of the
exit code, the structured console output and the list of files written
(path and content).  The YAML template substitution, the JSON-schema
validation and the console table formatter are external collaborators of
the program and are modelled structurally: console tables are kept as
row lists and the YAML cache file is kept as a structured record (the
serializers are deterministic functions of those values).  An uncaught
Python KeyError terminates the interpreter with exit status 1; those
paths are modelled as error results carrying a `pyKeyError` item.
-/

namespace Whisk

/-- Decidable equality of run results and intermediate Except values. -/
instance {ε α : Type} [DecidableEq ε] [DecidableEq α] : DecidableEq (Except ε α) := fun a b =>
  match a, b with
  | .error x, .error y =>
    if h : x = y then .isTrue (by rw [h]) else .isFalse (by intro hc; cases hc; exact h rfl)
  | .ok x, .ok y =>
    if h : x = y then .isTrue (by rw [h]) else .isFalse (by intro hc; cases hc; exact h rfl)
  | .error _, .ok _ => .isFalse (by intro hc; cases hc)
  | .ok _, .error _ => .isFalse (by intro hc; cases hc)

/-- Helper for splitWs: walk the characters with the (reversed) pending
word, emitting a word at each whitespace boundary. -/
def splitWsAux : List Char → List Char → List String
  | [], acc => if acc.isEmpty then [] else [String.mk acc.reverse]
  | c :: rest, acc =>
    if c.isWhitespace then
      (if acc.isEmpty then [] else [String.mk acc.reverse]) ++ splitWsAux rest []
    else splitWsAux rest (c :: acc)

/-- Python str.split(): split on whitespace runs, dropping empty pieces. -/
def splitWs (s : String) : List String := splitWsAux s.data []

/-- Executable lexicographic comparison of character lists (Python
string ordering by code point). -/
def charListLt : List Char → List Char → Bool
  | [], [] => false
  | [], _ :: _ => true
  | _ :: _, [] => false
  | a :: as, b :: bs =>
    if a < b then true else if b < a then false else charListLt as bs

/-- Executable lexicographic strict order on strings. -/
def strLt (a b : String) : Bool := charListLt a.data b.data

/-- Insert a string into a sorted duplicate-free list, dropping duplicates. -/
def insertSorted (x : String) : List String → List String
  | [] => [x]
  | y :: ys =>
    if x = y then y :: ys
    else if strLt x y then x :: y :: ys
    else y :: insertSorted x ys

/-- Python sorted(set(l)): the sorted duplicate-free list of the elements. -/
def sortedUnique : List String → List String
  | [] => []
  | x :: xs => insertSorted x (sortedUnique xs)

/-- Insert a string into a sorted list (duplicates kept). -/
def insort (x : String) : List String → List String
  | [] => [x]
  | y :: ys => if strLt y x then y :: insort x ys else x :: y :: ys

/-- Python sorted(l): ascending sort of a string list. -/
def sortStr : List String → List String
  | [] => []
  | x :: xs => insort x (sortStr xs)

/-- Spaces-joined list, as Python " ".join. -/
def joinSp (l : List String) : String := String.intercalate " " l

/-- A path is absolute when it starts with a slash. -/
def isAbs (s : String) : Bool :=
  match s.data with
  | [] => false
  | c :: _ => c = '/'

/-- pathlib Path joining: Path(a) / b rendered as a string. -/
def pathJoin (a b : String) : String :=
  if a = "" then b else a ++ "/" ++ b

/-- str(Path(p).absolute()) for a process working directory cwd. -/
def absolutize (cwd p : String) : String :=
  if isAbs p then p else if p = "" then cwd else cwd ++ "/" ++ p

/-- pyrex sub-mapping of a version entry (root and conf file). -/
structure Pyrex where
  root : String := ""
  conf : String := ""
deriving DecidableEq

/-- A named layer collection declared inside a version entry. -/
structure LayerCollection where
  name : String
  paths : List String
deriving DecidableEq

/-- One entry of the versions map of the configuration document. -/
structure VersionEntry where
  description : String := ""
  layers : List LayerCollection := []
  bitbakedir : Option String := none
  pyrex : Option Pyrex := none
  oeinit : String := ""
deriving DecidableEq

/-- One entry of the products map of the configuration document. -/
structure Product where
  description : String := ""
  defaultVersion : String := ""
  layers : List String := []
  targets : List String := []
  multiconfigs : List String := []
  conf : String := ""
deriving DecidableEq

/-- One entry of the modes map. -/
structure ModeEntry where
  description : String := ""
  conf : String := ""
deriving DecidableEq

/-- One entry of the sites map. -/
structure SiteEntry where
  description : String := ""
  conf : String := ""
deriving DecidableEq

/-- The optional core namespace section of the document. -/
structure CoreCfg where
  layers : List String := []
  conf : String := ""
deriving DecidableEq

/-- The defaults section of the document. -/
structure Defaults where
  mode : Option String := none
  products : Option (List String) := none
  site : Option String := none
  buildDir : Option String := none
deriving DecidableEq

/-- The hooks section of the document (absent hooks read as ""). -/
structure Hooks where
  preInit : String := ""
  postInit : String := ""
deriving DecidableEq

/-- The parsed, schema-validated configuration document.  Maps are kept as
association lists in document order (Python dicts preserve insertion
order); keys are unique. -/
structure ConfigDoc where
  products : List (String × Product) := []
  modes : List (String × ModeEntry) := []
  sites : List (String × SiteEntry) := []
  versions : List (String × VersionEntry) := []
  defaults : Defaults := {}
  hooks : Hooks := {}
  core : CoreCfg := {}
  cache : Option String := none
deriving DecidableEq

def lookupProduct (doc : ConfigDoc) (p : String) : Option Product :=
  (doc.products.find? (fun kv => kv.1 == p)).map (·.2)

def lookupMode (doc : ConfigDoc) (m : String) : Option ModeEntry :=
  (doc.modes.find? (fun kv => kv.1 == m)).map (·.2)

def lookupSite (doc : ConfigDoc) (s : String) : Option SiteEntry :=
  (doc.sites.find? (fun kv => kv.1 == s)).map (·.2)

def lookupVersion (doc : ConfigDoc) (v : String) : Option VersionEntry :=
  (doc.versions.find? (fun kv => kv.1 == v)).map (·.2)

/-- conf["products"][p] at places where the source already guaranteed
membership (the layer sanity check ran get_product on every active
product before any use here). -/
def getProduct (doc : ConfigDoc) (p : String) : Product :=
  (lookupProduct doc p).getD {}

/-- The persisted user-configuration cache file, as a YAML mapping with
optional fields (cache.get with defaults in the source). -/
structure Cache where
  cacheVersion : Option Nat := none
  mode : Option String := none
  products : Option (List String) := none
  site : Option String := none
  version : Option String := none
  actualVersion : Option String := none
  buildDir : Option String := none
deriving DecidableEq

/-- CACHE_VERSION in the source. -/
def CACHE_VERSION : Nat := 1

/-- Cache loading: ignored when caching is disabled, when the file is
absent or unreadable (`none` on disk), or when the version tag does not
match CACHE_VERSION. -/
def readCache (noConfig : Bool) (disk : Option Cache) : Cache :=
  if noConfig then {}
  else
    match disk with
    | none => {}
    | some c => if c.cacheVersion = some CACHE_VERSION then c else {}

/-- The sub-command level arguments of the configure entry point. -/
structure SysArgs where
  root : String := "/project"
  init : Bool := false
  env : String := "/tmp/env"
  cwd : String := "/cwd"
deriving DecidableEq

/-- The user-argument surface parsed inside configure. -/
structure UserArgs where
  products : List String := []
  mode : Option String := none
  site : Option String := none
  version : Option String := none
  buildDir : Option String := none
  list : Bool := false
  write : Bool := false
  noConfig : Bool := false
  quiet : Bool := false
deriving DecidableEq

/-- Python truthiness of an optional string argument. -/
def truthy : Option String → Bool
  | none => false
  | some s => !(s == "")

/-- One console output event: a printed line, a printed option table
(rows of current-marker, name, description), or one of the diagnostics
of the program carrying its formatted values. -/
inductive OutputItem where
  | line (s : String)
  | catalog (rows : List (Bool × String × String))
  | unknownProduct (p : String)
  | unknownMode (m : String)
  | unknownSite (s : String)
  | unknownVersion (v : String)
  | versionImmutable (v : String)
  | buildDirImmutable (d : String)
  | needProducts
  | needMode
  | needSite
  | incompatible (p v actual : String)
  | missingLayers (ns : String) (missing : List String) (version : String)
  | pyKeyError (k : String)
deriving DecidableEq

/-- Content of a written file: plain text, or the YAML-serialized cache
record (the YAML dump is a deterministic function of the record). -/
inductive FileData where
  | text (s : String)
  | yaml (c : Cache)
deriving DecidableEq

/-- Result of one run: process exit code, console output, and the files
written in order (path, content). -/
structure RunOutput where
  exitCode : Nat
  stdout : List OutputItem
  files : List (String × FileData)
deriving DecidableEq

/-- print_items: one row per sorted key (current marker, name,
description) followed by rows for the extra entries. -/
def rowsOf (keys : List String) (desc : String → String) (isCur : String → Bool)
    (extra : List String) : List (Bool × String × String) :=
  (sortStr keys).map (fun k => (isCur k, k, desc k))
    ++ extra.map (fun e => (isCur e, e, ""))

def productRows (doc : ConfigDoc) (cur : List String) : List (Bool × String × String) :=
  rowsOf (doc.products.map (·.1))
    (fun k => ((lookupProduct doc k).map (·.description)).getD "")
    (fun k => decide (k ∈ cur)) []

def modeRows (doc : ConfigDoc) (cur : Option String) : List (Bool × String × String) :=
  rowsOf (doc.modes.map (·.1))
    (fun k => ((lookupMode doc k).map (·.description)).getD "")
    (fun k => decide (cur = some k)) []

def siteRows (doc : ConfigDoc) (cur : Option String) : List (Bool × String × String) :=
  rowsOf (doc.sites.map (·.1))
    (fun k => ((lookupSite doc k).map (·.description)).getD "")
    (fun k => decide (cur = some k)) []

/-- print_versions always appends the literal pseudo-entry "default". -/
def versionRows (doc : ConfigDoc) (cur : String) : List (Bool × String × String) :=
  rowsOf (doc.versions.map (·.1))
    (fun k => ((lookupVersion doc k).map (·.description)).getD "")
    (fun k => decide (k = cur)) ["default"]

/-- Current selections merged from cache and document defaults. -/
def curProductsOf (doc : ConfigDoc) (cache : Cache) : List String :=
  cache.products.getD (doc.defaults.products.getD [])

def curModeOf (doc : ConfigDoc) (cache : Cache) : Option String :=
  match cache.mode with
  | some m => some m
  | none => doc.defaults.mode

def curSiteOf (doc : ConfigDoc) (cache : Cache) : Option String :=
  match cache.site with
  | some s => some s
  | none => doc.defaults.site

def curVersionOf (cache : Cache) : String :=
  cache.version.getD "default"

def curActualOf (cache : Cache) : String :=
  cache.actualVersion.getD ""

def curBuildDirOf (doc : ConfigDoc) (cache : Cache) : String :=
  cache.buildDir.getD (doc.defaults.buildDir.getD "build")

/-- Source lines 176-186: a non-empty --products argument list is
concatenated, whitespace-split, deduplicated and sorted; every result
must name a declared product; the result replaces the current set. -/
def resolveProducts (doc : ConfigDoc) (cur : List String) (uaProds : List String) :
    Except (List OutputItem) (List String) :=
  if uaProds.isEmpty then .ok cur
  else
    let ups := sortedUnique ((uaProds.map splitWs).flatten)
    match ups.find? (fun p => (lookupProduct doc p).isNone) with
    | some p => .error [.unknownProduct p, .catalog (productRows doc cur)]
    | none => .ok ups

/-- Source lines 188-194. -/
def resolveMode (doc : ConfigDoc) (cur : Option String) (uam : Option String) :
    Except (List OutputItem) (Option String) :=
  match uam with
  | none => .ok cur
  | some m =>
    if m = "" then .ok cur
    else if (lookupMode doc m).isSome then .ok (some m)
    else .error [.unknownMode m, .catalog (modeRows doc cur)]

/-- Source lines 196-202. -/
def resolveSite (doc : ConfigDoc) (cur : Option String) (uas : Option String) :
    Except (List OutputItem) (Option String) :=
  match uas with
  | none => .ok cur
  | some s =>
    if s = "" then .ok cur
    else if (lookupSite doc s).isSome then .ok (some s)
    else .error [.unknownSite s, .catalog (siteRows doc cur)]

/-- Source lines 204-221: on an init run an explicit version must be
"default" or declared; otherwise an explicit version must equal the
current symbolic version. -/
def resolveVersion (doc : ConfigDoc) (init : Bool) (cur : String) (uav : Option String) :
    Except (List OutputItem) String :=
  match uav with
  | none => .ok cur
  | some v =>
    if v = "" then .ok cur
    else if init then
      if v = "default" ∨ (lookupVersion doc v).isSome then .ok v
      else .error [.unknownVersion v, .catalog (versionRows doc cur)]
    else if v = cur then .ok cur
    else .error [.versionImmutable v]

/-- Source lines 223-230. -/
def resolveBuildDir (init : Bool) (cur : String) (uab : Option String) :
    Except (List OutputItem) String :=
  match uab with
  | none => .ok cur
  | some b =>
    if b = "" then .ok cur
    else if init then .ok b
    else .error [.buildDirImmutable b]

/-- Source lines 232-234. -/
def checkProductsSet (ps : List String) : Except (List OutputItem) Unit :=
  if ps.isEmpty then .error [.needProducts] else .ok ()

/-- Source lines 236-238. -/
def checkModeSet (mo : Option String) : Except (List OutputItem) String :=
  match mo with
  | none => .error [.needMode]
  | some m => if m = "" then .error [.needMode] else .ok m

/-- Source lines 240-242. -/
def checkSiteSet (st : Option String) : Except (List OutputItem) String :=
  match st with
  | none => .error [.needSite]
  | some s => if s = "" then .error [.needSite] else .ok s

/-- The loop of source lines 248-259: fold the default_version of each
active product into the running actual version (None seeds, any
difference is an incompatibility naming the product and both values).
An unknown product raises KeyError at line 250. -/
def bindSeed (doc : ConfigDoc) (seed : Option String) :
    List String → Except (List OutputItem) (Option String)
  | [] => .ok seed
  | p :: rest =>
    match lookupProduct doc p with
    | none => .error [.pyKeyError p]
    | some pr =>
      match seed with
      | none => bindSeed doc (some pr.defaultVersion) rest
      | some a =>
        if pr.defaultVersion = a then bindSeed doc (some a) rest
        else .error [.incompatible p pr.defaultVersion a]

/-- Source lines 244-261: an init run discards the cached actual
version; a symbolic "default" selection folds the product defaults,
an explicit selection is used directly. -/
def bindActual (doc : ConfigDoc) (init : Bool) (curActual : String) (curVersion : String)
    (ps : List String) : Except (List OutputItem) String :=
  let seed : Option String := if init then none else some curActual
  if curVersion = "default" then
    match bindSeed doc seed ps with
    | .error e => .error e
    | .ok none => .error [.pyKeyError "None"]
    | .ok (some v) => .ok v
  else .ok curVersion

/-- Source line 263: conf["versions"][actual]; a miss is an uncaught
KeyError. -/
def lookupVersionE (doc : ConfigDoc) (av : String) : Except (List OutputItem) VersionEntry :=
  match lookupVersion doc av with
  | none => .error [.pyKeyError av]
  | some ve => .ok ve

/-- The cur_layers dict of source line 265: name-to-paths mapping built
from the version layer list with Python dict semantics (first key
position kept, last value wins). -/
def layersDict (ls : List LayerCollection) : List (String × List String) :=
  ls.foldl
    (fun acc l =>
      if acc.any (fun kv => kv.1 == l.name) then
        acc.map (fun kv => if kv.1 = l.name then (kv.1, l.paths) else kv)
      else acc ++ [(l.name, l.paths)])
    []

/-- get_product(ns).get("layers", []) for a namespace (core or product). -/
def nsLayers (doc : ConfigDoc) (ns : String) : List String :=
  if ns = "core" then doc.core.layers else (getProduct doc ns).layers

/-- get_product for the sanity-check loop: an unknown product name
raises KeyError (source line 137). -/
def nsLayersE (doc : ConfigDoc) (ns : String) : Except (List OutputItem) (List String) :=
  if ns = "core" then .ok doc.core.layers
  else
    match lookupProduct doc ns with
    | none => .error [.pyKeyError ns]
    | some pr => .ok pr.layers

/-- The layer-collection names a namespace declares that are not keys of
the cur_layers dict (the set comprehension of source line 269). -/
def missingOf (doc : ConfigDoc) (dict : List (String × List String)) (ns : String) :
    List String :=
  ((nsLayers doc ns).filter (fun l => !(dict.any (fun kv => kv.1 == l)))).eraseDups

/-- Source lines 267-278: walk core then the active products; the first
namespace with missing collections aborts with one error naming that
namespace, its missing names and the bound version. -/
def checkLayers (doc : ConfigDoc) (dict : List (String × List String)) (av : String) :
    List String → Except (List OutputItem) Unit
  | [] => .ok ()
  | ns :: rest =>
    match nsLayersE doc ns with
    | .error e => .error e
    | .ok ls =>
      let missing := (ls.filter (fun l => !(dict.any (fun kv => kv.1 == l)))).eraseDups
      if missing.isEmpty then checkLayers doc dict av rest
      else .error [.missingLayers ns missing av]

/-- The write flag (source lines 163, 177, 189, 197, 205). -/
def wrFlag (sa : SysArgs) (ua : UserArgs) : Bool :=
  ua.write || sa.init || !ua.products.isEmpty || truthy ua.mode || truthy ua.site
    || truthy ua.version

/-- The fully resolved selection reaching the write phase. -/
structure Resolved where
  products : List String
  mode : String
  site : String
  version : String
  actualVersion : String
  buildDir : String
  wr : Bool
  ver : VersionEntry
deriving DecidableEq

/-- The resolution phase of configure (source lines 176-278), i.e.
everything before the first file write. -/
def resolve (doc : ConfigDoc) (cache : Cache) (sa : SysArgs) (ua : UserArgs) :
    Except (List OutputItem) Resolved :=
  (resolveProducts doc (curProductsOf doc cache) ua.products).bind fun ps =>
  (resolveMode doc (curModeOf doc cache) ua.mode).bind fun mo =>
  (resolveSite doc (curSiteOf doc cache) ua.site).bind fun st =>
  (resolveVersion doc sa.init (curVersionOf cache) ua.version).bind fun vs =>
  (resolveBuildDir sa.init (curBuildDirOf doc cache) ua.buildDir).bind fun bd =>
  (checkProductsSet ps).bind fun _ =>
  (checkModeSet mo).bind fun mode =>
  (checkSiteSet st).bind fun site =>
  (bindActual doc sa.init (curActualOf cache) vs ps).bind fun av =>
  (lookupVersionE doc av).bind fun ve =>
  (checkLayers doc (layersDict ve.layers) av ("core" :: ps)).bind fun _ =>
  .ok ⟨ps, mode, site, vs, av, bd, wrFlag sa ua, ve⟩

/-- Directory holding the whisk script itself (THIS_DIR); a fixed
installation constant. -/
def THIS_DIR : String := "/opt/whisk"

/-- The path of the persisted cache file. -/
def cachePath (doc : ConfigDoc) (sa : SysArgs) : String :=
  doc.cache.getD (pathJoin sa.root ".config.yaml")

/-- The cache record written at the end of a run (source lines 340-355). -/
def cacheOf (sa : SysArgs) (r : Resolved) : Cache :=
  { cacheVersion := some CACHE_VERSION
    mode := some r.mode
    products := some r.products
    site := some r.site
    version := some r.version
    actualVersion := some r.actualVersion
    buildDir := some (absolutize sa.cwd r.buildDir) }

/-- The init-only block of the environment file (source lines 305-334). -/
def initLines (r : Resolved) (sa : SysArgs) : String :=
  (match r.ver.bitbakedir with
   | some b => if b = "" then "" else "export BITBAKEDIR=\"" ++ b ++ "\"\n"
   | none => "")
  ++ "export BB_ENV_EXTRAWHITE=\"$\x7bBB_ENV_EXTRAWHITE\x7d WHISK_PROJECT_ROOT WHISK_PRODUCTS WHISK_MODE WHISK_SITE WHISK_ACTUAL_VERSION\"\n"
  ++ (match r.ver.pyrex with
      | some py =>
        "PYREX_CONFIG_BIND=\"" ++ absolutize sa.cwd sa.root ++ "\"\n"
        ++ "PYREX_ROOT=\"" ++ py.root ++ "\"\n"
        ++ "PYREX_OEINIT=\"" ++ r.ver.oeinit ++ "\"\n"
        ++ "PYREXCONFFILE=\"" ++ py.conf ++ "\"\n\n"
        ++ ". " ++ py.root ++ "/pyrex-init-build-env $WHISK_BUILD_DIR\n"
      | none => ". " ++ r.ver.oeinit ++ " $WHISK_BUILD_DIR\n")

/-- The environment-export file (source lines 280-338). -/
def envFileContent (doc : ConfigDoc) (r : Resolved) (sa : SysArgs) : String :=
  "export WHISK_PRODUCTS=\"" ++ joinSp r.products ++ "\"\n"
  ++ "export WHISK_MODE=\"" ++ r.mode ++ "\"\n"
  ++ "export WHISK_SITE=\"" ++ r.site ++ "\"\n"
  ++ "export WHISK_VERSION=\"" ++ r.version ++ "\"\n"
  ++ "export WHISK_ACTUAL_VERSION=\"" ++ r.actualVersion ++ "\"\n\n"
  ++ "export WHISK_BUILD_DIR=" ++ absolutize sa.cwd r.buildDir ++ "\n"
  ++ "export WHISK_INIT=" ++ (if sa.init then "true" else "false") ++ "\n"
  ++ doc.hooks.preInit ++ "\n"
  ++ (if sa.init then initLines r sa else "")
  ++ doc.hooks.postInit ++ "\n"
  ++ "unset WHISK_BUILD_DIR WHISK_INIT\n"

/-- Fixed first line of the generated configuration files. -/
def siteHeader : String := "# This file was dynamically generated by whisk\n"

/-- The fixed dedented block of source lines 368-387. -/
def tmpdirBlock : String :=
  "\nWHISK_PRODUCT ?= \"core\"\n\n# Set TMPDIR to a version specific location\nTMPDIR_BASE ?= \"$\x7bTOPDIR\x7d/tmp/$\x7bWHISK_MODE\x7d/$\x7bWHISK_ACTUAL_VERSION\x7d\"\nDEPLOY_DIR_BASE ?= \"$\x7bTOPDIR\x7d/deploy/$\x7bWHISK_MODE\x7d/$\x7bWHISK_ACTUAL_VERSION\x7d\"\n\nTMPDIR = \"$\x7bTMPDIR_BASE\x7d/$\x7bWHISK_PRODUCT\x7d\"\n\n# Set the deploy directory to output to a well-known location\nDEPLOY_DIR = \"$\x7bDEPLOY_DIR_$\x7bWHISK_PRODUCT\x7d\x7d\"\nDEPLOY_DIR_IMAGE = \"$\x7bDEPLOY_DIR\x7d/images\"\n\nDEPLOY_DIR_core = \"$\x7bDEPLOY_DIR_BASE\x7d/core\"\n"

/-- The site.conf content (source lines 360-426), given the site and
mode entries already looked up. -/
def siteConfContent (doc : ConfigDoc) (r : Resolved) (st : SiteEntry) (md : ModeEntry) :
    String :=
  siteHeader ++ st.conf ++ "\n" ++ md.conf ++ "\n" ++ tmpdirBlock
  ++ "WHISK_TARGETS_core = \""
  ++ joinSp (r.products.map (fun p => "$\x7bWHISK_TARGETS_" ++ p ++ "\x7d")) ++ "\"\n"
  ++ String.join ((sortStr (doc.products.map (·.1))).map (fun p =>
       "DEPLOY_DIR_" ++ p ++ " = \"$\x7bDEPLOY_DIR_BASE\x7d/" ++ p ++ "\"\n"
       ++ "WHISK_TARGETS_" ++ p ++ " = \""
       ++ joinSp (sortStr (getProduct doc p).targets) ++ "\"\n"))
  ++ "\n"
  ++ "BBMULTICONFIG = \""
  ++ joinSp (sortedUnique (r.products.map (fun p => "product-" ++ p)
       ++ (r.products.map (fun p => (getProduct doc p).multiconfigs)).flatten)) ++ "\"\n"
  ++ "BBMASK += \"$\x7bBBMASK_$\x7bWHISK_PRODUCT\x7d\x7d\"\n\n"
  ++ "BB_HASHBASE_WHITELIST_append = \" WHISK_PROJECT_ROOT\"\n"
  ++ doc.core.conf ++ "\n"

/-- One per-declared-product multiconfig file (source lines 428-447). -/
def productFileContent (name : String) (p : Product) : String :=
  siteHeader
  ++ "WHISK_PRODUCT = \"" ++ name ++ "\"\n"
  ++ "WHISK_PRODUCT_DESCRIPTION = \"" ++ p.description ++ "\"\n\n"
  ++ p.conf ++ "\n"

/-- Fixed head of bblayers.conf (source lines 450-459). -/
def bbHeader : String :=
  siteHeader ++ "BBPATH = \"$\x7bTOPDIR\x7d\"\nBBFILES ?= \"\"\n\n"

/-- One per-namespace masking directive. -/
def mkMask (ns p : String) : String :=
  "BBMASK_" ++ ns ++ " += \"" ++ p ++ "\"\n"

/-- One layer inclusion directive. -/
def mkIncl (p : String) : String :=
  "BBLAYERS += \"" ++ p ++ "\"\n"

/-- The union of the layer collections the namespaces request
(requested_layers of source lines 461-465). -/
def requestedLayers (doc : ConfigDoc) (ps : List String) : List String :=
  ("core" :: ps).flatMap (nsLayers doc)

/-- The mask directives one namespace receives: every collection of the
cur_layers dict the namespace does not list (source lines 467-470). -/
def maskLinesFor (doc : ConfigDoc) (dict : List (String × List String)) (ns : String) :
    List String :=
  (dict.filter (fun kv => !((nsLayers doc ns).contains kv.1))).flatMap
    (fun kv => kv.2.map (mkMask ns))

/-- The inclusion directives: paths of collections requested by some
namespace, in version-declared order (source lines 473-476). -/
def includeLines (ls : List LayerCollection) (req : List String) : List String :=
  (ls.filter (fun l => req.contains l.name)).flatMap (fun l => l.paths.map mkIncl)

/-- The bblayers.conf content (source lines 449-489). -/
def bblayersContent (doc : ConfigDoc) (r : Resolved) : String :=
  bbHeader
  ++ String.join (("core" :: r.products).flatMap
       (fun ns => maskLinesFor doc (layersDict r.ver.layers) ns ++ ["\n"]))
  ++ String.join (includeLines r.ver.layers (requestedLayers doc r.products))
  ++ mkIncl (THIS_DIR ++ "/meta-whisk") ++ "\n"
  ++ "\n"
  ++ "# This line gives devtool a place to add its layers\nBBLAYERS += \"\"\n"

/-- The write phase of configure (source lines 280-504): environment
file, cache file unless caching is disabled, then the build-directory
artifacts when the write flag is set.  An unknown current site or mode
coming from the cache raises KeyError at source line 363/365 after the
header (and site text) were already written. -/
def emit (doc : ConfigDoc) (r : Resolved) (sa : SysArgs) (ua : UserArgs) : RunOutput :=
  let files0 : List (String × FileData) :=
    (sa.env, FileData.text (envFileContent doc r sa)) ::
      (if ua.noConfig then [] else [(cachePath doc sa, FileData.yaml (cacheOf sa r))])
  let summary : List OutputItem :=
    if ua.quiet then []
    else
      [.line ("PRODUCT    = " ++ joinSp r.products),
       .line ("MODE       = " ++ r.mode),
       .line ("SITE       = " ++ r.site),
       .line ("VERSION    = " ++ r.version
         ++ (if r.version ≠ r.actualVersion then " (" ++ r.actualVersion ++ ")" else ""))]
  if r.wr then
    match lookupSite doc r.site with
    | none =>
      ⟨1, [.pyKeyError r.site],
        files0 ++ [(pathJoin r.buildDir "conf/site.conf", FileData.text siteHeader)]⟩
    | some st =>
      match lookupMode doc r.mode with
      | none =>
        ⟨1, [.pyKeyError r.mode],
          files0 ++ [(pathJoin r.buildDir "conf/site.conf",
            FileData.text (siteHeader ++ st.conf ++ "\n"))]⟩
      | some md =>
        let files1 := files0
          ++ [(pathJoin r.buildDir "conf/site.conf",
                FileData.text (siteConfContent doc r st md))]
          ++ doc.products.map (fun np =>
               (pathJoin r.buildDir ("conf/multiconfig/product-" ++ np.1 ++ ".conf"),
                FileData.text (productFileContent np.1 np.2)))
          ++ [(pathJoin r.buildDir "conf/bblayers.conf",
                FileData.text (bblayersContent doc r))]
        if sa.init then ⟨0, summary, files1⟩ else ⟨0, [], files1⟩
  else ⟨0, summary, files0⟩

/-- The --list short circuit (source lines 165-174). -/
def listRun (doc : ConfigDoc) (cache : Cache) : RunOutput :=
  ⟨0,
    [.line "Possible products:", .catalog (productRows doc (curProductsOf doc cache)),
     .line "Possible modes:", .catalog (modeRows doc (curModeOf doc cache)),
     .line "Possible sites:", .catalog (siteRows doc (curSiteOf doc cache)),
     .line "Possible versions:", .catalog (versionRows doc (curVersionOf cache))],
    []⟩

/-- The configure entry point over a validated document: read the cache,
short-circuit on --list, resolve, then write.  Every resolution failure
returns exit code 1 with no file written. -/
def configure (doc : ConfigDoc) (disk : Option Cache) (sa : SysArgs) (ua : UserArgs) :
    RunOutput :=
  let cache := readCache ua.noConfig disk
  if ua.list then listRun doc cache
  else
    match resolve doc cache sa ua with
    | .error msgs => ⟨1, msgs, []⟩
    | .ok r => emit doc r sa ua

/-- File list with the path keys made absolute: two relative spellings
of the same on-disk artifact compare equal after normalization. -/
def normFiles (cwd : String) (fs : List (String × FileData)) : List (String × FileData) :=
  fs.map (fun pc => (absolutize cwd pc.1, pc.2))

/-! Concrete fixtures used by witnesses and counterexamples. -/

/-- Two-product document for the products-flag examples. -/
def docC1 : ConfigDoc := { products := [("a", {}), ("b", {})] }

/-- The single product of docW. -/
def prodP1 : Product :=
  { description := "P one", defaultVersion := "v1", layers := ["l1"], targets := ["t1"], multiconfigs := ["mc1"], conf := "P1" }

/-- The single version of docW: collection l1 is requested by core and
p1, collection l2 by nobody. -/
def verV1 : VersionEntry :=
  { layers := [⟨"l1", ["/la", "/lb"]⟩, ⟨"l2", ["/lc"]⟩], oeinit := "/oe" }

/-- A small well-formed document: one product, mode, site and version. -/
def docW : ConfigDoc :=
  { products := [("p1", prodP1)],
    modes := [("m1", { conf := "M1" })],
    sites := [("s1", { conf := "S1" })],
    versions := [("v1", verV1)],
    core := { layers := ["l1"] } }

/-- A cache as an earlier successful run of docW would persist it. -/
def cacheW : Cache :=
  { cacheVersion := some CACHE_VERSION, mode := some "m1", products := some ["p1"],
    site := some "s1", version := some "v1", actualVersion := some "v1",
    buildDir := some "/b" }

/-- Non-initialization run arguments. -/
def saRun : SysArgs := { init := false }

/-- The resolved selection of a successful docW/cacheW non-init run. -/
def rW : Resolved :=
  { products := ["p1"], mode := "m1", site := "s1", version := "v1",
    actualVersion := "v1", buildDir := "/b", wr := true, ver := verV1 }

/-- Initialization run arguments. -/
def saInit : SysArgs := { init := true }

/-- Product declaring default_version v2. -/
def prodC3 : Product := { defaultVersion := "v2", layers := ["l1"] }

/-- Version entry with the single collection l1. -/
def verL1 : VersionEntry := { layers := [⟨"l1", ["/la"]⟩] }

/-- Document whose single product declares default_version v2. -/
def docC3 : ConfigDoc :=
  { products := [("p1", prodC3)],
    modes := [("m1", {})],
    sites := [("s1", {})],
    versions := [("v1", verL1), ("v2", verL1)] }

/-- Cache carrying actual_version v1 while docC3 declares default v2. -/
def cacheC3 : Cache :=
  { cacheVersion := some CACHE_VERSION, mode := some "m1", products := some ["p1"],
    site := some "s1", version := some "default", actualVersion := some "v1",
    buildDir := some "/b" }

/-- Product declaring the absent collection L2. -/
def prodC5 : Product := { defaultVersion := "v1", layers := ["L2"] }

/-- Document where both core (L1) and product p (L2) declare layer
collections missing from version v1. -/
def docC5 : ConfigDoc :=
  { products := [("p", prodC5)],
    modes := [("m1", {})],
    sites := [("s1", {})],
    versions := [("v1", {})],
    core := { layers := ["L1"] } }

/-! Generic Except-chain helpers. -/

theorem except_bind_ok {ε α β : Type} {e : Except ε α} {f : α → Except ε β} {b : β}
    (h : e.bind f = .ok b) : ∃ a, e = .ok a ∧ f a = .ok b := by
  cases e with
  | error msg => simp [Except.bind] at h
  | ok a => exact ⟨a, rfl, by simpa [Except.bind] using h⟩

theorem except_bind_error {ε α β : Type} {e : Except ε α} {f : α → Except ε β} {msg : ε}
    (h : e = .error msg) : e.bind f = .error msg := by
  subst h; rfl

theorem configure_of_resolve_error {doc disk sa ua msgs}
    (hl : ua.list = false)
    (h : resolve doc (readCache ua.noConfig disk) sa ua = .error msgs) :
    configure doc disk sa ua = ⟨1, msgs, []⟩ := by
  simp [configure, hl, h]

theorem configure_of_resolve_ok {doc disk sa ua r}
    (hl : ua.list = false)
    (h : resolve doc (readCache ua.noConfig disk) sa ua = .ok r) :
    configure doc disk sa ua = emit doc r sa ua := by
  simp [configure, hl, h]

/-! Facts about the sorted-unique helper. -/

theorem charListLt_lex {as bs : List Char} :
    charListLt as bs = true ↔ List.Lex (· < ·) as bs := by
  induction as generalizing bs with
  | nil =>
    cases bs with
    | nil =>
      refine iff_of_false (by simp [charListLt]) ?_
      intro h
      cases h
    | cons b bs => exact iff_of_true rfl List.Lex.nil
  | cons a as ih =>
    cases bs with
    | nil =>
      refine iff_of_false (by simp [charListLt]) ?_
      intro h
      cases h
    | cons b bs =>
      simp only [charListLt]
      split
      · next h1 => exact iff_of_true rfl (List.Lex.rel h1)
      · split
        · next h1 h2 =>
          refine iff_of_false (by simp) ?_
          intro hl
          cases hl with
          | cons h => exact absurd h2 (lt_irrefl a)
          | rel h => exact h1 h
        · next h1 h2 =>
          have hab : a = b := le_antisymm (le_of_not_lt h2) (le_of_not_lt h1)
          subst hab
          rw [ih]
          constructor
          · exact List.Lex.cons
          · intro hl
            cases hl with
            | cons h => exact h
            | rel h => exact absurd h h1

theorem strLt_iff {a b : String} : strLt a b = true ↔ a < b := by
  rw [String.lt_iff_toList_lt]
  exact charListLt_lex

theorem mem_insertSorted {x y : String} {l : List String} :
    y ∈ insertSorted x l ↔ y = x ∨ y ∈ l := by
  induction l with
  | nil => simp [insertSorted]
  | cons z zs ih =>
    simp only [insertSorted]
    split
    · next h => subst h; simp [List.mem_cons]
    · split
      · simp [List.mem_cons]
      · simp [List.mem_cons, ih]
        tauto

theorem sorted_insertSorted {x : String} {l : List String}
    (h : l.Sorted (· ≤ ·)) : (insertSorted x l).Sorted (· ≤ ·) := by
  induction l with
  | nil => simp [insertSorted]
  | cons z zs ih =>
    rw [List.sorted_cons] at h
    obtain ⟨hz, hzs⟩ := h
    simp only [insertSorted]
    split
    · exact List.sorted_cons.mpr ⟨hz, hzs⟩
    · split
      · next hne hlt =>
        have hlt' : x < z := strLt_iff.mp hlt
        refine List.sorted_cons.mpr ⟨?_, List.sorted_cons.mpr ⟨hz, hzs⟩⟩
        intro b hb
        rcases List.mem_cons.mp hb with hb1 | hb2
        · exact hb1 ▸ le_of_lt hlt'
        · exact le_trans (le_of_lt hlt') (hz b hb2)
      · next hne hnlt =>
        have hle : z ≤ x := le_of_not_lt (fun hh => hnlt (strLt_iff.mpr hh))
        refine List.sorted_cons.mpr ⟨?_, ih hzs⟩
        intro b hb
        rcases mem_insertSorted.mp hb with hb1 | hb2
        · exact hb1 ▸ hle
        · exact hz b hb2

theorem nodup_insertSorted {x : String} {l : List String}
    (hs : l.Sorted (· ≤ ·)) (hn : l.Nodup) : (insertSorted x l).Nodup := by
  induction l with
  | nil => simp [insertSorted]
  | cons z zs ih =>
    rw [List.sorted_cons] at hs
    obtain ⟨hz, hzs⟩ := hs
    rw [List.nodup_cons] at hn
    obtain ⟨hzn, hn'⟩ := hn
    simp only [insertSorted]
    split
    · exact List.nodup_cons.mpr ⟨hzn, hn'⟩
    · split
      · next hne hlt =>
        have hlt' : x < z := strLt_iff.mp hlt
        refine List.nodup_cons.mpr ⟨?_, List.nodup_cons.mpr ⟨hzn, hn'⟩⟩
        intro hmem
        rcases List.mem_cons.mp hmem with h1 | h2
        · exact hne h1
        · exact absurd (hz x h2) hlt'.not_le
      · next hne hnlt =>
        refine List.nodup_cons.mpr ⟨?_, ih hzs hn'⟩
        intro hmem
        rcases mem_insertSorted.mp hmem with h1 | h2
        · exact hne h1.symm
        · exact hzn h2

theorem sortedUnique_sorted (l : List String) : (sortedUnique l).Sorted (· ≤ ·) := by
  induction l with
  | nil => simp [sortedUnique]
  | cons x xs ih => exact sorted_insertSorted ih

theorem sortedUnique_nodup (l : List String) : (sortedUnique l).Nodup := by
  induction l with
  | nil => simp [sortedUnique]
  | cons x xs ih => exact nodup_insertSorted (sortedUnique_sorted xs) ih

theorem mem_sortedUnique {x : String} {l : List String} :
    x ∈ sortedUnique l ↔ x ∈ l := by
  induction l with
  | nil => simp [sortedUnique]
  | cons y ys ih => simp [sortedUnique, mem_insertSorted, ih]

/-- C1: for every run, the set of requested products is computed by
concatenating all repeated --products flag values, splitting each on
whitespace, deduplicating, and sorting lexicographically, and this set
entirely replaces (is not unioned with) the persisted/default product
set; in particular --products "b a", --products a --products b, and
--products "a b" all resolve to products = [a, b]. -/
theorem c1_products_replace (doc : ConfigDoc) (cur cur' ps res : List String)
    (h : ps ≠ []) :
    (resolveProducts doc cur ps = .ok res ↔ resolveProducts doc cur' ps = .ok res) ∧
    (resolveProducts doc cur ps = .ok res →
      res.Sorted (· ≤ ·) ∧ res.Nodup ∧ (∀ x, x ∈ res ↔ ∃ a ∈ ps, x ∈ splitWs a)) ∧
    (resolveProducts docC1 [] ["b a"] = .ok ["a", "b"]
      ∧ resolveProducts docC1 [] ["a", "b"] = .ok ["a", "b"]
      ∧ resolveProducts docC1 ["z"] ["a b"] = .ok ["a", "b"]) := by
  have hne : ps.isEmpty = false := by
    cases ps with
    | nil => exact absurd rfl h
    | cons a l => rfl
  refine ⟨?_, ?_, by decide⟩
  · simp only [resolveProducts, hne, Bool.false_eq_true, if_false]
    cases hf : (sortedUnique ((ps.map splitWs).flatten)).find?
        (fun p => (lookupProduct doc p).isNone) with
    | none => simp
    | some q => simp
  · intro hok
    simp only [resolveProducts, hne, Bool.false_eq_true, if_false] at hok
    cases hf : (sortedUnique ((ps.map splitWs).flatten)).find?
        (fun p => (lookupProduct doc p).isNone) with
    | none =>
      rw [hf] at hok
      have hres : res = sortedUnique ((ps.map splitWs).flatten) := by
        cases hok; rfl
      subst hres
      refine ⟨sortedUnique_sorted _, sortedUnique_nodup _, ?_⟩
      intro x
      rw [mem_sortedUnique, List.mem_flatten]
      constructor
      · rintro ⟨w, hw, hx⟩
        obtain ⟨a, ha, rfl⟩ := List.mem_map.mp hw
        exact ⟨a, ha, hx⟩
      · rintro ⟨a, ha, hx⟩
        exact ⟨splitWs a, List.mem_map.mpr ⟨a, ha, rfl⟩, hx⟩
    | some q => rw [hf] at hok; cases hok

/-- C1 witness: the three concrete flag spellings all resolve to the
sorted deduplicated pair. -/
theorem c1_witness :
    resolveProducts docC1 [] ["b a"] = .ok ["a", "b"]
      ∧ resolveProducts docC1 [] ["a", "b"] = .ok ["a", "b"]
      ∧ resolveProducts docC1 ["z"] ["a b"] = .ok ["a", "b"] :=
  (c1_products_replace docC1 [] [] ["x"] [] (by decide)).2.2

/-- Inversion of a successful resolution into its step equations. -/
theorem resolve_ok_inv {doc : ConfigDoc} {cache : Cache} {sa : SysArgs} {ua : UserArgs}
    {r : Resolved} (h : resolve doc cache sa ua = .ok r) :
    ∃ ps mo st vs bd mode site av ve,
      resolveProducts doc (curProductsOf doc cache) ua.products = .ok ps ∧
      resolveMode doc (curModeOf doc cache) ua.mode = .ok mo ∧
      resolveSite doc (curSiteOf doc cache) ua.site = .ok st ∧
      resolveVersion doc sa.init (curVersionOf cache) ua.version = .ok vs ∧
      resolveBuildDir sa.init (curBuildDirOf doc cache) ua.buildDir = .ok bd ∧
      checkProductsSet ps = .ok () ∧
      checkModeSet mo = .ok mode ∧
      checkSiteSet st = .ok site ∧
      bindActual doc sa.init (curActualOf cache) vs ps = .ok av ∧
      lookupVersionE doc av = .ok ve ∧
      checkLayers doc (layersDict ve.layers) av ("core" :: ps) = .ok () ∧
      r = ⟨ps, mode, site, vs, av, bd, wrFlag sa ua, ve⟩ := by
  unfold resolve at h
  obtain ⟨ps, h1, h⟩ := except_bind_ok h
  obtain ⟨mo, h2, h⟩ := except_bind_ok h
  obtain ⟨st, h3, h⟩ := except_bind_ok h
  obtain ⟨vs, h4, h⟩ := except_bind_ok h
  obtain ⟨bd, h5, h⟩ := except_bind_ok h
  obtain ⟨u1, h6, h⟩ := except_bind_ok h
  obtain ⟨mode, h7, h⟩ := except_bind_ok h
  obtain ⟨site, h8, h⟩ := except_bind_ok h
  obtain ⟨av, h9, h⟩ := except_bind_ok h
  obtain ⟨ve, h10, h⟩ := except_bind_ok h
  obtain ⟨u2, h11, h⟩ := except_bind_ok h
  cases u1
  cases u2
  exact ⟨ps, mo, st, vs, bd, mode, site, av, ve, h1, h2, h3, h4, h5, h6, h7, h8, h9, h10,
    h11, (Except.ok.inj h).symm⟩

/-! Facts about the default-version binding loop. -/

theorem bindSeed_some_ok {doc : ConfigDoc} {a : String} {ps : List String} {x : Option String} :
    bindSeed doc (some a) ps = .ok x ↔
      x = some a ∧ ∀ p ∈ ps, ∃ pr, lookupProduct doc p = some pr ∧ pr.defaultVersion = a := by
  induction ps with
  | nil => simp [bindSeed, eq_comm]
  | cons p rest ih =>
    simp only [bindSeed]
    cases hlk : lookupProduct doc p with
    | none =>
      refine iff_of_false (by intro hc; cases hc) ?_
      rintro ⟨-, hall⟩
      obtain ⟨pr, hpr, -⟩ := hall p (List.mem_cons_self p rest)
      rw [hlk] at hpr
      cases hpr
    | some pr =>
      dsimp only
      by_cases hd : pr.defaultVersion = a
      · rw [if_pos hd, ih]
        constructor
        · rintro ⟨rfl, hrest⟩
          refine ⟨rfl, ?_⟩
          intro q hq
          rcases List.mem_cons.mp hq with rfl | hq'
          · exact ⟨pr, hlk, hd⟩
          · exact hrest q hq'
        · rintro ⟨rfl, hall⟩
          exact ⟨rfl, fun q hq => hall q (List.mem_cons_of_mem _ hq)⟩
      · rw [if_neg hd]
        refine iff_of_false (by intro hc; cases hc) ?_
        rintro ⟨-, hall⟩
        obtain ⟨pr', hpr', hd'⟩ := hall p (List.mem_cons_self p rest)
        rw [hlk] at hpr'
        cases hpr'
        exact hd hd'

theorem bindSeed_none_ok {doc : ConfigDoc} {ps : List String} {w : String} :
    bindSeed doc none ps = .ok (some w) ↔
      ps ≠ [] ∧ ∀ p ∈ ps, ∃ pr, lookupProduct doc p = some pr ∧ pr.defaultVersion = w := by
  cases ps with
  | nil => simp [bindSeed]
  | cons p rest =>
    simp only [bindSeed]
    cases hlk : lookupProduct doc p with
    | none =>
      refine iff_of_false (by intro hc; cases hc) ?_
      rintro ⟨-, hall⟩
      obtain ⟨pr, hpr, -⟩ := hall p (List.mem_cons_self p rest)
      rw [hlk] at hpr
      cases hpr
    | some pr =>
      dsimp only
      rw [bindSeed_some_ok]
      constructor
      · rintro ⟨hw, hrest⟩
        have hw' : w = pr.defaultVersion := Option.some.inj hw
        refine ⟨by simp, ?_⟩
        intro q hq
        rcases List.mem_cons.mp hq with rfl | hq'
        · exact ⟨pr, hlk, hw'.symm⟩
        · obtain ⟨pr', h1, h2⟩ := hrest q hq'
          exact ⟨pr', h1, by rw [h2, ← hw']⟩
      · rintro ⟨-, hall⟩
        obtain ⟨pr', hpr', hd'⟩ := hall p (List.mem_cons_self p rest)
        rw [hlk] at hpr'
        cases hpr'
        refine ⟨by rw [hd'], ?_⟩
        intro q hq
        obtain ⟨pr'', h1, h2⟩ := hall q (List.mem_cons_of_mem _ hq)
        exact ⟨pr'', h1, by rw [h2, hd']⟩

theorem bindActual_default_ok {doc : ConfigDoc} {init : Bool} {a : String}
    {ps : List String} {w : String} :
    bindActual doc init a "default" ps = .ok w ↔
      bindSeed doc (if init then none else some a) ps = .ok (some w) := by
  simp only [bindActual, if_pos rfl]
  cases hb : bindSeed doc (if init then none else some a) ps with
  | error e => simp
  | ok o =>
    cases o with
    | none => simp
    | some u => simp

/-- C2: for every non-init run, an explicit --version argument that
differs from the current (persisted) symbolic version is rejected with
the version-immutability error and exit code 1, while supplying the same
version as the persisted one succeeds. -/
theorem c2_version_immutable (doc : ConfigDoc) (disk : Option Cache) (sa : SysArgs)
    (ua : UserArgs) (v : String) (ps : List String) (mo st : Option String)
    (hl : ua.list = false) (hinit : sa.init = false)
    (hv : ua.version = some v) (hvne : v ≠ "")
    (hp : resolveProducts doc (curProductsOf doc (readCache ua.noConfig disk))
        ua.products = .ok ps)
    (hm : resolveMode doc (curModeOf doc (readCache ua.noConfig disk)) ua.mode = .ok mo)
    (hs : resolveSite doc (curSiteOf doc (readCache ua.noConfig disk)) ua.site = .ok st) :
    (v ≠ curVersionOf (readCache ua.noConfig disk) →
        configure doc disk sa ua = ⟨1, [.versionImmutable v], []⟩) ∧
    (v = curVersionOf (readCache ua.noConfig disk) →
        resolveVersion doc sa.init (curVersionOf (readCache ua.noConfig disk)) ua.version
          = .ok (curVersionOf (readCache ua.noConfig disk))) ∧
    (configure docW (some cacheW) saRun { version := some "v1" }).exitCode = 0 := by
  refine ⟨?_, ?_, by decide⟩
  · intro hne
    apply configure_of_resolve_error hl
    have hrv : resolveVersion doc sa.init (curVersionOf (readCache ua.noConfig disk))
        ua.version = .error [.versionImmutable v] := by
      rw [hv]
      simp [resolveVersion, hinit, hvne, hne]
    unfold resolve
    simp only [hp, hm, hs, hrv, Except.bind]
  · intro heq
    rw [hv]
    simp [resolveVersion, hinit, hvne, heq]

/-- C2 witness: a differing explicit version is rejected on a concrete
non-init run, and the matching explicit version exits 0. -/
theorem c2_witness :
    configure docC3 (some cacheC3) saRun { version := some "v9" }
        = ⟨1, [.versionImmutable "v9"], []⟩ ∧
    (configure docW (some cacheW) saRun { version := some "v1" }).exitCode = 0 := by
  have h := c2_version_immutable docC3 (some cacheC3) saRun { version := some "v9" }
    "v9" ["p1"] (some "m1") (some "s1") rfl rfl rfl (by decide) (by decide) (by decide)
    (by decide)
  exact ⟨h.1 (by decide), h.2.2⟩

/-- C3 counterexample: on a non-init run with symbolic version
"default", all active products agree on default_version v2, yet the run
fails with the incompatibility error because the binding compares
against the cached actual_version v1 instead of recomputing. -/
theorem c3_counterexample :
    (∀ p ∈ ["p1"], ∃ pr, lookupProduct docC3 p = some pr ∧ pr.defaultVersion = "v2") ∧
    curVersionOf (readCache false (some cacheC3)) = "default" ∧
    configure docC3 (some cacheC3) saRun {} = ⟨1, [.incompatible "p1" "v2" "v1"], []⟩ := by
  refine ⟨?_, by decide, by decide⟩
  intro p hp
  simp only [List.mem_singleton] at hp
  subst hp
  exact ⟨prodC3, rfl, rfl⟩

/-- C3 (amended): when the symbolic version is "default", the binding
seeds the comparison with the cached actual_version on a non-init run
(discarding it on an init run), and every active product default_version
must equal the running value, the first mismatch failing with the
incompatibility error; on an init run the first product seeds the value,
so success means exactly that all defaults agree on the result, while on
a non-init run success means all defaults equal the cached seed. -/
theorem c3_default_binding (doc : ConfigDoc) (a a' v w : String) (ps : List String) :
    (bindActual doc true a v ps = bindActual doc true a' v ps) ∧
    (v ≠ "default" → bindActual doc false a v ps = .ok v) ∧
    (bindActual doc true a "default" ps = .ok w ↔
      ps ≠ [] ∧ ∀ p ∈ ps, ∃ pr, lookupProduct doc p = some pr ∧ pr.defaultVersion = w) ∧
    (bindActual doc false a "default" ps = .ok w ↔
      w = a ∧ ∀ p ∈ ps, ∃ pr, lookupProduct doc p = some pr ∧ pr.defaultVersion = a) := by
  refine ⟨by simp [bindActual], ?_, ?_, ?_⟩
  · intro hv
    simp [bindActual, hv]
  · rw [bindActual_default_ok]
    simp only [if_pos rfl]
    exact bindSeed_none_ok
  · rw [bindActual_default_ok]
    simp only [Bool.false_eq_true, if_false]
    rw [bindSeed_some_ok]
    simp [Option.some.injEq]

/-- C3 witness: the amended binding applied at a concrete input. -/
theorem c3_witness : bindActual docW false "v1" "default" ["p1"] = .ok "v1" :=
  (c3_default_binding docW "v1" "v1" "x" "v1" ["p1"]).2.2.2.mpr
    ⟨rfl, by
      intro p hp
      simp only [List.mem_singleton] at hp
      subst hp
      exact ⟨prodP1, rfl, rfl⟩⟩

/-- C10: for every non-init run in which the cache supplies no
actual_version and the symbolic version resolves to "default", the
default-version binding compares the first active product default
against the initial empty-string actual_version and fails with the
incompatibility error naming that product, even when a single product is
active and all products agree. -/
theorem c10_empty_seed (doc : ConfigDoc) (disk : Option Cache) (sa : SysArgs) (ua : UserArgs)
    (p : String) (rest : List String) (mo st : Option String) (bd mode site : String)
    (pr : Product)
    (hl : ua.list = false) (hinit : sa.init = false)
    (hac : (readCache ua.noConfig disk).actualVersion = none)
    (hp : resolveProducts doc (curProductsOf doc (readCache ua.noConfig disk))
        ua.products = .ok (p :: rest))
    (hm : resolveMode doc (curModeOf doc (readCache ua.noConfig disk)) ua.mode = .ok mo)
    (hs : resolveSite doc (curSiteOf doc (readCache ua.noConfig disk)) ua.site = .ok st)
    (hv : resolveVersion doc sa.init (curVersionOf (readCache ua.noConfig disk))
        ua.version = .ok "default")
    (hbd : resolveBuildDir sa.init (curBuildDirOf doc (readCache ua.noConfig disk))
        ua.buildDir = .ok bd)
    (hcm : checkModeSet mo = .ok mode)
    (hcs : checkSiteSet st = .ok site)
    (hpr : lookupProduct doc p = some pr)
    (hd : pr.defaultVersion ≠ "") :
    configure doc disk sa ua = ⟨1, [.incompatible p pr.defaultVersion ""], []⟩ := by
  apply configure_of_resolve_error hl
  have hca : curActualOf (readCache ua.noConfig disk) = "" := by
    unfold curActualOf
    rw [hac]
    rfl
  have hba : bindActual doc sa.init (curActualOf (readCache ua.noConfig disk)) "default"
      (p :: rest) = .error [.incompatible p pr.defaultVersion ""] := by
    rw [hca, hinit]
    simp [bindActual, bindSeed, hpr, hd]
  have hcp : checkProductsSet (p :: rest) = .ok () := rfl
  unfold resolve
  simp only [hp, hm, hs, hv, hbd, hcp, hcm, hcs, hba, Except.bind]

/-- C10 witness: a concrete cache-less non-init run with one product
whose default is v2 fails comparing v2 against the empty string. -/
theorem c10_witness :
    configure docC3 none saRun { products := ["p1"], mode := some "m1", site := some "s1" }
      = ⟨1, [.incompatible "p1" "v2" ""], []⟩ :=
  c10_empty_seed docC3 none saRun
    { products := ["p1"], mode := some "m1", site := some "s1" }
    "p1" [] (some "m1") (some "s1") "build" "m1" "s1" prodC3
    rfl rfl rfl (by decide) (by decide) (by decide) (by decide) (by decide) (by decide)
    (by decide) (by decide) (by decide)

/-! Error-propagation lemmas through the resolution chain. -/

theorem resolve_err_products {doc : ConfigDoc} {cache : Cache} {sa : SysArgs}
    {ua : UserArgs} {e : List OutputItem}
    (h : resolveProducts doc (curProductsOf doc cache) ua.products = .error e) :
    resolve doc cache sa ua = .error e := by
  unfold resolve
  simp only [h, Except.bind]

theorem resolve_err_mode {doc : ConfigDoc} {cache : Cache} {sa : SysArgs} {ua : UserArgs}
    {ps : List String} {e : List OutputItem}
    (h1 : resolveProducts doc (curProductsOf doc cache) ua.products = .ok ps)
    (h2 : resolveMode doc (curModeOf doc cache) ua.mode = .error e) :
    resolve doc cache sa ua = .error e := by
  unfold resolve
  simp only [h1, h2, Except.bind]

theorem resolve_err_site {doc : ConfigDoc} {cache : Cache} {sa : SysArgs} {ua : UserArgs}
    {ps : List String} {mo : Option String} {e : List OutputItem}
    (h1 : resolveProducts doc (curProductsOf doc cache) ua.products = .ok ps)
    (h2 : resolveMode doc (curModeOf doc cache) ua.mode = .ok mo)
    (h3 : resolveSite doc (curSiteOf doc cache) ua.site = .error e) :
    resolve doc cache sa ua = .error e := by
  unfold resolve
  simp only [h1, h2, h3, Except.bind]

theorem resolve_err_version {doc : ConfigDoc} {cache : Cache} {sa : SysArgs} {ua : UserArgs}
    {ps : List String} {mo st : Option String} {e : List OutputItem}
    (h1 : resolveProducts doc (curProductsOf doc cache) ua.products = .ok ps)
    (h2 : resolveMode doc (curModeOf doc cache) ua.mode = .ok mo)
    (h3 : resolveSite doc (curSiteOf doc cache) ua.site = .ok st)
    (h4 : resolveVersion doc sa.init (curVersionOf cache) ua.version = .error e) :
    resolve doc cache sa ua = .error e := by
  unfold resolve
  simp only [h1, h2, h3, h4, Except.bind]

theorem resolve_err_buildDir {doc : ConfigDoc} {cache : Cache} {sa : SysArgs} {ua : UserArgs}
    {ps : List String} {mo st : Option String} {vs : String} {e : List OutputItem}
    (h1 : resolveProducts doc (curProductsOf doc cache) ua.products = .ok ps)
    (h2 : resolveMode doc (curModeOf doc cache) ua.mode = .ok mo)
    (h3 : resolveSite doc (curSiteOf doc cache) ua.site = .ok st)
    (h4 : resolveVersion doc sa.init (curVersionOf cache) ua.version = .ok vs)
    (h5 : resolveBuildDir sa.init (curBuildDirOf doc cache) ua.buildDir = .error e) :
    resolve doc cache sa ua = .error e := by
  unfold resolve
  simp only [h1, h2, h3, h4, h5, Except.bind]

theorem resolve_err_checkProducts {doc : ConfigDoc} {cache : Cache} {sa : SysArgs}
    {ua : UserArgs} {ps : List String} {mo st : Option String} {vs bd : String}
    {e : List OutputItem}
    (h1 : resolveProducts doc (curProductsOf doc cache) ua.products = .ok ps)
    (h2 : resolveMode doc (curModeOf doc cache) ua.mode = .ok mo)
    (h3 : resolveSite doc (curSiteOf doc cache) ua.site = .ok st)
    (h4 : resolveVersion doc sa.init (curVersionOf cache) ua.version = .ok vs)
    (h5 : resolveBuildDir sa.init (curBuildDirOf doc cache) ua.buildDir = .ok bd)
    (h6 : checkProductsSet ps = .error e) :
    resolve doc cache sa ua = .error e := by
  unfold resolve
  simp only [h1, h2, h3, h4, h5, h6, Except.bind]

theorem resolve_err_checkMode {doc : ConfigDoc} {cache : Cache} {sa : SysArgs}
    {ua : UserArgs} {ps : List String} {mo st : Option String} {vs bd : String}
    {e : List OutputItem}
    (h1 : resolveProducts doc (curProductsOf doc cache) ua.products = .ok ps)
    (h2 : resolveMode doc (curModeOf doc cache) ua.mode = .ok mo)
    (h3 : resolveSite doc (curSiteOf doc cache) ua.site = .ok st)
    (h4 : resolveVersion doc sa.init (curVersionOf cache) ua.version = .ok vs)
    (h5 : resolveBuildDir sa.init (curBuildDirOf doc cache) ua.buildDir = .ok bd)
    (h6 : checkProductsSet ps = .ok ())
    (h7 : checkModeSet mo = .error e) :
    resolve doc cache sa ua = .error e := by
  unfold resolve
  simp only [h1, h2, h3, h4, h5, h6, h7, Except.bind]

theorem resolve_err_checkSite {doc : ConfigDoc} {cache : Cache} {sa : SysArgs}
    {ua : UserArgs} {ps : List String} {mo st : Option String} {vs bd mode : String}
    {e : List OutputItem}
    (h1 : resolveProducts doc (curProductsOf doc cache) ua.products = .ok ps)
    (h2 : resolveMode doc (curModeOf doc cache) ua.mode = .ok mo)
    (h3 : resolveSite doc (curSiteOf doc cache) ua.site = .ok st)
    (h4 : resolveVersion doc sa.init (curVersionOf cache) ua.version = .ok vs)
    (h5 : resolveBuildDir sa.init (curBuildDirOf doc cache) ua.buildDir = .ok bd)
    (h6 : checkProductsSet ps = .ok ())
    (h7 : checkModeSet mo = .ok mode)
    (h8 : checkSiteSet st = .error e) :
    resolve doc cache sa ua = .error e := by
  unfold resolve
  simp only [h1, h2, h3, h4, h5, h6, h7, h8, Except.bind]

theorem resolve_err_lookupVersion {doc : ConfigDoc} {cache : Cache} {sa : SysArgs}
    {ua : UserArgs} {ps : List String} {mo st : Option String}
    {vs bd mode site av : String} {e : List OutputItem}
    (h1 : resolveProducts doc (curProductsOf doc cache) ua.products = .ok ps)
    (h2 : resolveMode doc (curModeOf doc cache) ua.mode = .ok mo)
    (h3 : resolveSite doc (curSiteOf doc cache) ua.site = .ok st)
    (h4 : resolveVersion doc sa.init (curVersionOf cache) ua.version = .ok vs)
    (h5 : resolveBuildDir sa.init (curBuildDirOf doc cache) ua.buildDir = .ok bd)
    (h6 : checkProductsSet ps = .ok ())
    (h7 : checkModeSet mo = .ok mode)
    (h8 : checkSiteSet st = .ok site)
    (h9 : bindActual doc sa.init (curActualOf cache) vs ps = .ok av)
    (h10 : lookupVersionE doc av = .error e) :
    resolve doc cache sa ua = .error e := by
  unfold resolve
  simp only [h1, h2, h3, h4, h5, h6, h7, h8, h9, h10, Except.bind]

/-- C4 counterexample: two runs contradicting the claim as stated.  A
--list run requesting the unknown product "bogus" exits 0, and a run
requesting --version "default", a name absent from the versions map,
exits 0 and writes artifacts. -/
theorem c4_counterexample :
    (lookupProduct docW "bogus" = none ∧
      (configure docW none saRun { products := ["bogus"], list := true }).exitCode = 0) ∧
    (lookupVersion docW "default" = none ∧
      (configure docW none saInit
        { products := ["p1"], mode := some "m1", site := some "s1",
          version := some "default" }).exitCode = 0 ∧
      (configure docW none saInit
        { products := ["p1"], mode := some "m1", site := some "s1",
          version := some "default" }).files ≠ []) := by
  refine ⟨⟨by decide, by decide⟩, ⟨by decide, by decide, by decide⟩⟩

/-- C4 (amended): for every non---list run in which a CLI-requested
product, mode, site, or version name is unknown (absent from the
corresponding document map, the literal "default" being always accepted
as the symbolic pseudo-version), the run fails with exit code 1 and no
output file is written. -/
theorem c4_unknown_rejected (doc : ConfigDoc) (disk : Option Cache) (sa : SysArgs)
    (ua : UserArgs)
    (hl : ua.list = false)
    (hbad :
      (∃ p ∈ (ua.products.map splitWs).flatten, lookupProduct doc p = none)
      ∨ (∃ m, ua.mode = some m ∧ m ≠ "" ∧ lookupMode doc m = none)
      ∨ (∃ s, ua.site = some s ∧ s ≠ "" ∧ lookupSite doc s = none)
      ∨ (∃ v, ua.version = some v ∧ v ≠ "" ∧ v ≠ "default" ∧ lookupVersion doc v = none)) :
    (configure doc disk sa ua).exitCode = 1 ∧ (configure doc disk sa ua).files = [] := by
  have key : ∀ msgs, resolve doc (readCache ua.noConfig disk) sa ua = .error msgs →
      (configure doc disk sa ua).exitCode = 1 ∧ (configure doc disk sa ua).files = [] := by
    intro msgs h
    rw [configure_of_resolve_error hl h]
    exact ⟨rfl, rfl⟩
  rcases hbad with ⟨p, hp, hnone⟩ | ⟨m, hm, hmne, hmnone⟩ | ⟨s, hs, hsne, hsnone⟩
    | ⟨v, hv, hvne, hvdef, hvnone⟩
  · have hne : ua.products.isEmpty = false := by
      cases h2 : ua.products with
      | nil => rw [h2] at hp; simp at hp
      | cons a l => rfl
    have hmem : p ∈ sortedUnique ((ua.products.map splitWs).flatten) :=
      mem_sortedUnique.mpr hp
    cases hfq : (sortedUnique ((ua.products.map splitWs).flatten)).find?
        (fun q => (lookupProduct doc q).isNone) with
    | none =>
      exact absurd (List.find?_eq_none.mp hfq p hmem) (by simp [hnone])
    | some q =>
      have herr : resolveProducts doc (curProductsOf doc (readCache ua.noConfig disk))
          ua.products = .error [.unknownProduct q,
            .catalog (productRows doc (curProductsOf doc (readCache ua.noConfig disk)))] := by
        simp [resolveProducts, hne, hfq]
      exact key _ (resolve_err_products herr)
  · cases hp : resolveProducts doc (curProductsOf doc (readCache ua.noConfig disk))
        ua.products with
    | error e => exact key _ (resolve_err_products hp)
    | ok ps =>
      have herr : resolveMode doc (curModeOf doc (readCache ua.noConfig disk)) ua.mode
          = .error [.unknownMode m,
            .catalog (modeRows doc (curModeOf doc (readCache ua.noConfig disk)))] := by
        rw [hm]
        simp [resolveMode, hmne, hmnone]
      exact key _ (resolve_err_mode hp herr)
  · cases hp : resolveProducts doc (curProductsOf doc (readCache ua.noConfig disk))
        ua.products with
    | error e => exact key _ (resolve_err_products hp)
    | ok ps =>
      cases hmo : resolveMode doc (curModeOf doc (readCache ua.noConfig disk)) ua.mode with
      | error e => exact key _ (resolve_err_mode hp hmo)
      | ok mo =>
        have herr : resolveSite doc (curSiteOf doc (readCache ua.noConfig disk)) ua.site
            = .error [.unknownSite s,
              .catalog (siteRows doc (curSiteOf doc (readCache ua.noConfig disk)))] := by
          rw [hs]
          simp [resolveSite, hsne, hsnone]
        exact key _ (resolve_err_site hp hmo herr)
  · cases hp : resolveProducts doc (curProductsOf doc (readCache ua.noConfig disk))
        ua.products with
    | error e => exact key _ (resolve_err_products hp)
    | ok ps =>
      cases hmo : resolveMode doc (curModeOf doc (readCache ua.noConfig disk)) ua.mode with
      | error e => exact key _ (resolve_err_mode hp hmo)
      | ok mo =>
        cases hst : resolveSite doc (curSiteOf doc (readCache ua.noConfig disk)) ua.site with
        | error e => exact key _ (resolve_err_site hp hmo hst)
        | ok st =>
          cases hinit : sa.init with
          | true =>
            have herr : resolveVersion doc sa.init
                (curVersionOf (readCache ua.noConfig disk)) ua.version
                = .error [.unknownVersion v,
                  .catalog (versionRows doc (curVersionOf (readCache ua.noConfig disk)))] := by
              rw [hv, hinit]
              simp [resolveVersion, hvne, hvdef, hvnone]
            exact key _ (resolve_err_version hp hmo hst herr)
          | false =>
            by_cases hvc : v = curVersionOf (readCache ua.noConfig disk)
            · have hok : resolveVersion doc sa.init
                  (curVersionOf (readCache ua.noConfig disk)) ua.version
                  = .ok (curVersionOf (readCache ua.noConfig disk)) := by
                rw [hv, hinit]
                simp [resolveVersion, hvne, hvc]
              cases hbd : resolveBuildDir sa.init
                  (curBuildDirOf doc (readCache ua.noConfig disk)) ua.buildDir with
              | error e => exact key _ (resolve_err_buildDir hp hmo hst hok hbd)
              | ok bd =>
                cases hcp : checkProductsSet ps with
                | error e => exact key _ (resolve_err_checkProducts hp hmo hst hok hbd hcp)
                | ok u1 =>
                  cases u1
                  cases hcm : checkModeSet mo with
                  | error e =>
                    exact key _ (resolve_err_checkMode hp hmo hst hok hbd hcp hcm)
                  | ok mode =>
                    cases hcs : checkSiteSet st with
                    | error e =>
                      exact key _ (resolve_err_checkSite hp hmo hst hok hbd hcp hcm hcs)
                    | ok site =>
                      have hba : bindActual doc sa.init
                          (curActualOf (readCache ua.noConfig disk))
                          (curVersionOf (readCache ua.noConfig disk)) ps
                          = .ok (curVersionOf (readCache ua.noConfig disk)) := by
                        rw [← hvc]
                        simp [bindActual, hvdef]
                      have hlv : lookupVersionE doc
                          (curVersionOf (readCache ua.noConfig disk))
                          = .error [.pyKeyError (curVersionOf (readCache ua.noConfig disk))] := by
                        rw [← hvc]
                        simp [lookupVersionE, hvnone]
                      exact key _
                        (resolve_err_lookupVersion hp hmo hst hok hbd hcp hcm hcs hba hlv)
            · have herr : resolveVersion doc sa.init
                  (curVersionOf (readCache ua.noConfig disk)) ua.version
                  = .error [.versionImmutable v] := by
                rw [hv, hinit]
                simp [resolveVersion, hvne, hvc]
              exact key _ (resolve_err_version hp hmo hst herr)

/-- C4 witness: an unknown mode on a non-list run exits 1 with no file
written. -/
theorem c4_witness :
    (configure docW none saRun { mode := some "zz" }).exitCode = 1 ∧
    (configure docW none saRun { mode := some "zz" }).files = [] :=
  c4_unknown_rejected docW none saRun { mode := some "zz" } rfl
    (Or.inr (Or.inl ⟨"zz", rfl, by decide, by decide⟩))

/-- C5 counterexample: core misses L1 and product p misses L2 in the
bound version, but the run reports only the first affected namespace
(core) with its missing names, not every affected namespace. -/
theorem c5_counterexample :
    configure docC5 none saInit { products := ["p"], mode := some "m1", site := some "s1" }
        = ⟨1, [.missingLayers "core" ["L1"] "v1"], []⟩ ∧
    missingOf docC5 [] "p" = ["L2"] := by
  refine ⟨by decide, by decide⟩

/-- C5 (amended): when namespaces declare layer-collection names absent
from the bound version, the run fails with one error naming the first
affected namespace, in the order core then active products, together
with all of that namespace of missing collection names; later affected
namespaces are not included. -/
theorem c5_first_affected (doc : ConfigDoc) (dict : List (String × List String))
    (av : String) (nss : List String)
    (h : ∀ ns ∈ nss, nsLayersE doc ns = .ok (nsLayers doc ns)) :
    checkLayers doc dict av nss =
      match nss.find? (fun ns => !(missingOf doc dict ns).isEmpty) with
      | none => .ok ()
      | some ns => .error [.missingLayers ns (missingOf doc dict ns) av] := by
  induction nss with
  | nil => rfl
  | cons ns rest ih =>
    have hns := h ns (List.mem_cons_self ns rest)
    have hrest : ∀ x ∈ rest, nsLayersE doc x = .ok (nsLayers doc x) :=
      fun x hx => h x (List.mem_cons_of_mem _ hx)
    have hfold : ((nsLayers doc ns).filter
        (fun l => !(dict.any (fun kv => kv.1 == l)))).eraseDups = missingOf doc dict ns := rfl
    by_cases hm : (missingOf doc dict ns).isEmpty = true
    · rw [List.find?_cons_of_neg _ (by simp [hm])]
      have hlhs : checkLayers doc dict av (ns :: rest) = checkLayers doc dict av rest := by
        simp only [checkLayers, hns, hfold]
        rw [if_pos hm]
      rw [hlhs, ih hrest]
    · simp only [checkLayers, hns, hfold]
      rw [List.find?_cons_of_pos _ (by simp [hm]), if_neg hm]

/-- C5 witness: the amended first-namespace reporting at the concrete
miss configuration. -/
theorem c5_witness :
    checkLayers docC5 [] "v1" ["core", "p"]
      = .error [.missingLayers "core" ["L1"] "v1"] := by
  have h := c5_first_affected docC5 [] "v1" ["core", "p"] (by
    intro ns hns
    rcases List.mem_cons.mp hns with rfl | hns'
    · rfl
    · rcases List.mem_cons.mp hns' with rfl | hns''
      · rfl
      · cases hns'')
  rw [h]
  decide

/-- List.contains agrees with membership on strings. -/
theorem contains_eq_mem {a : String} {l : List String} : l.contains a = true ↔ a ∈ l := by
  induction l with
  | nil => simp
  | cons x xs ih => simp [List.contains_cons, ih]

/-- Under unique collection names the cur_layers dict is the plain
name-paths projection in declared order. -/
theorem layersDict_go (ls : List LayerCollection) :
    ∀ acc : List (String × List String),
      (ls.map (·.name)).Nodup →
      (∀ l ∈ ls, ∀ kv ∈ acc, kv.1 ≠ l.name) →
      List.foldl
        (fun acc l =>
          if acc.any (fun kv => kv.1 == l.name) then
            acc.map (fun kv => if kv.1 = l.name then (kv.1, l.paths) else kv)
          else acc ++ [(l.name, l.paths)])
        acc ls = acc ++ ls.map (fun l => (l.name, l.paths)) := by
  induction ls with
  | nil =>
    intro acc hn hd
    simp
  | cons l rest ih =>
    intro acc hn hd
    rw [List.map_cons, List.nodup_cons] at hn
    obtain ⟨hnotin, hrest⟩ := hn
    have hany : acc.any (fun kv => kv.1 == l.name) = false := by
      rw [List.any_eq_false]
      intro kv hkv
      simpa using hd l (List.mem_cons_self l rest) kv hkv
    rw [List.foldl_cons, hany]
    simp only [Bool.false_eq_true, if_false]
    rw [ih (acc ++ [(l.name, l.paths)]) hrest ?_]
    · simp
    · intro l2 hl2 kv hkv
      rcases List.mem_append.mp hkv with hin | hin
      · exact hd l2 (List.mem_cons_of_mem _ hl2) kv hin
      · have hkv' : kv = (l.name, l.paths) := by simpa using hin
        subst hkv'
        intro heq
        have heq' : l.name = l2.name := heq
        apply hnotin
        rw [heq']
        exact List.mem_map.mpr ⟨l2, hl2, rfl⟩

theorem layersDict_of_nodup {ls : List LayerCollection}
    (h : (ls.map (·.name)).Nodup) :
    layersDict ls = ls.map (fun l => (l.name, l.paths)) := by
  unfold layersDict
  rw [layersDict_go ls [] h (by intro l hl kv hkv; cases hkv)]
  simp

/-- Filtering then flat-mapping groups into a per-element conditional
flatten. -/
theorem filter_flatMap_eq {α β : Type} (ls : List α) (q : α → Bool) (g : α → List β) :
    (ls.filter q).flatMap g = (ls.map (fun l => if q l then g l else [])).flatten := by
  induction ls with
  | nil => rfl
  | cons l rest ih =>
    by_cases h : q l
    · simp [List.filter_cons, h, ih]
    · simp [List.filter_cons, h, ih]

/-- The inclusion directive is injective in the path. -/
theorem mkIncl_inj {p q : String} (h : mkIncl p = mkIncl q) : p = q := by
  unfold mkIncl at h
  have hd := congrArg String.data h
  simp only [String.data_append, List.append_assoc] at hd
  have h1 := List.append_cancel_left hd
  have h2 := List.append_cancel_right h1
  cases p
  cases q
  exact congrArg String.mk h2

/-- C6: in the generated layer-path configuration file, a layer
collection of the bound version requested by no active namespace
contributes no inclusion directive, yet its paths still appear in the
per-namespace mask directives of every namespace that did not request
it; collections requested by at least one namespace get one inclusion
directive per path in version-declared order. -/
theorem c6_layer_inclusion (doc : ConfigDoc) (ls : List LayerCollection) (ps : List String)
    (c : LayerCollection) (hc : c ∈ ls) (huniq : (ls.map (·.name)).Nodup) :
    ((c.name ∉ requestedLayers doc ps) →
      (∀ p ∈ c.paths, (∀ c2 ∈ ls, c2 ≠ c → p ∉ c2.paths) →
        mkIncl p ∉ includeLines ls (requestedLayers doc ps)) ∧
      (∀ ns ∈ ("core" :: ps), ∀ p ∈ c.paths,
        mkMask ns p ∈ maskLinesFor doc (layersDict ls) ns)) ∧
    includeLines ls (requestedLayers doc ps)
      = (ls.map (fun l =>
          if (requestedLayers doc ps).contains l.name then l.paths.map mkIncl
          else [])).flatten := by
  constructor
  · intro hreq
    constructor
    · intro p hp hdisj hmem
      unfold includeLines at hmem
      rw [List.mem_flatMap] at hmem
      obtain ⟨l, hl, hml⟩ := hmem
      rw [List.mem_filter] at hl
      obtain ⟨hlls, hlreq⟩ := hl
      rw [List.mem_map] at hml
      obtain ⟨q, hq, hmq⟩ := hml
      have hpq : q = p := mkIncl_inj hmq
      subst hpq
      by_cases hlc : l = c
      · subst hlc
        exact hreq (contains_eq_mem.mp hlreq)
      · exact hdisj l hlls hlc hq
    · intro ns hns p hp
      have hnotin : c.name ∉ nsLayers doc ns := by
        intro hin
        exact hreq (List.mem_flatMap.mpr ⟨ns, hns, hin⟩)
      unfold maskLinesFor
      rw [List.mem_flatMap]
      refine ⟨(c.name, c.paths), ?_, List.mem_map.mpr ⟨p, hp, rfl⟩⟩
      rw [List.mem_filter]
      constructor
      · rw [layersDict_of_nodup huniq]
        exact List.mem_map.mpr ⟨c, hc, rfl⟩
      · simp only [Bool.not_eq_true']
        rw [← Bool.not_eq_true]
        intro hcon
        exact hnotin (contains_eq_mem.mp hcon)
  · unfold includeLines
    exact filter_flatMap_eq ls _ _

/-- C6 witness: in docW the collection l2 is requested by nobody; its
path is masked for core and not included. -/
theorem c6_witness :
    mkMask "core" "/lc" ∈ maskLinesFor docW (layersDict verV1.layers) "core" ∧
    mkIncl "/lc" ∉ includeLines verV1.layers (requestedLayers docW ["p1"]) := by
  have h := c6_layer_inclusion docW verV1.layers ["p1"] ⟨"l2", ["/lc"]⟩
    (by decide) (by decide)
  have h2 := h.1 (by decide)
  exact ⟨h2.2 "core" (by decide) "/lc" (by decide),
    h2.1 "/lc" (by decide) (by decide)⟩

/-- C7: when artifacts are written, every product declared in the
configuration document, not only the active products, gets its own
per-product configuration file with the fixed header, the product name
and description, and its free-text configuration block. -/
theorem c7_all_declared_products (doc : ConfigDoc) (disk : Option Cache) (sa : SysArgs)
    (ua : UserArgs) (out : RunOutput)
    (hl : ua.list = false) (hw : wrFlag sa ua = true)
    (hcfg : configure doc disk sa ua = out) (hok : out.exitCode = 0) :
    ∀ np ∈ doc.products, ∃ bd,
      (pathJoin bd ("conf/multiconfig/product-" ++ np.1 ++ ".conf"),
        FileData.text (productFileContent np.1 np.2)) ∈ out.files := by
  intro np hnp
  cases hres : resolve doc (readCache ua.noConfig disk) sa ua with
  | error e =>
    rw [configure_of_resolve_error hl hres] at hcfg
    rw [← hcfg] at hok
    simp at hok
  | ok r =>
    rw [configure_of_resolve_ok hl hres] at hcfg
    obtain ⟨ps, mo, st, vs, bd', mode, site, av, ve, h1, h2, h3, h4, h5, h6, h7, h8, h9,
      h10, h11, hr⟩ := resolve_ok_inv hres
    have hwr : r.wr = true := by
      rw [hr]
      exact hw
    subst hcfg
    refine ⟨r.buildDir, ?_⟩
    unfold emit at hok ⊢
    rw [hwr] at hok ⊢
    simp only [eq_self_iff_true, if_true] at hok ⊢
    cases hsl : lookupSite doc r.site with
    | none =>
      try rw [hsl] at hok
      simp at hok
    | some stE =>
      try rw [hsl] at hok
      try rw [hsl]
      try dsimp only at hok
      try dsimp only
      cases hml : lookupMode doc r.mode with
      | none =>
        try rw [hml] at hok
        simp at hok
      | some mdE =>
        try rw [hml] at hok
        try rw [hml]
        try dsimp only at hok
        try dsimp only
        have hmem : (pathJoin r.buildDir ("conf/multiconfig/product-" ++ np.1 ++ ".conf"),
            FileData.text (productFileContent np.1 np.2)) ∈ doc.products.map (fun np =>
              (pathJoin r.buildDir ("conf/multiconfig/product-" ++ np.1 ++ ".conf"),
                FileData.text (productFileContent np.1 np.2))) :=
          List.mem_map.mpr ⟨np, hnp, rfl⟩
        cases hinit2 : sa.init with
        | true =>
          simp only [eq_self_iff_true, if_true]
          exact List.mem_append_left _ (List.mem_append_right _ hmem)
        | false =>
          simp only [Bool.false_eq_true, if_false]
          exact List.mem_append_left _ (List.mem_append_right _ hmem)

/-- C7 witness: the declared product p1 gets its file on a concrete
successful --write run. -/
theorem c7_witness :
    ∃ bd, (pathJoin bd ("conf/multiconfig/product-" ++ "p1" ++ ".conf"),
      FileData.text (productFileContent "p1" prodP1))
        ∈ (configure docW (some cacheW) saRun { write := true }).files := by
  have h := c7_all_declared_products docW (some cacheW) saRun { write := true }
    (configure docW (some cacheW) saRun { write := true }) rfl rfl rfl (by decide)
  exact h ("p1", prodP1) (by decide)

/-- C8: for every structurally valid configuration document, a --list
run writes no files, prints the four option catalogs with the versions
catalog always including the literal pseudo-entry "default", and returns
exit code 0 without resolving further. -/
theorem c8_list_readonly (doc : ConfigDoc) (disk : Option Cache) (sa : SysArgs)
    (ua : UserArgs) (hl : ua.list = true) :
    (configure doc disk sa ua).exitCode = 0 ∧ (configure doc disk sa ua).files = [] ∧
    ∃ r1 r2 r3 r4,
      (configure doc disk sa ua).stdout =
        [.line "Possible products:", .catalog r1, .line "Possible modes:", .catalog r2,
         .line "Possible sites:", .catalog r3, .line "Possible versions:", .catalog r4] ∧
      ∃ b, (b, "default", "") ∈ r4 := by
  have hc : configure doc disk sa ua = listRun doc (readCache ua.noConfig disk) := by
    simp [configure, hl]
  rw [hc]
  refine ⟨rfl, rfl, ?_⟩
  refine ⟨_, _, _, _, rfl, ?_⟩
  refine ⟨decide ("default" = curVersionOf (readCache ua.noConfig disk)), ?_⟩
  unfold versionRows rowsOf
  apply List.mem_append_right
  simp

/-- C8 witness: a concrete --list run exits 0 and writes nothing. -/
theorem c8_witness :
    (configure docW none saRun { list := true }).exitCode = 0 ∧
    (configure docW none saRun { list := true }).files = [] :=
  ⟨(c8_list_readonly docW none saRun { list := true } rfl).1,
   (c8_list_readonly docW none saRun { list := true } rfl).2.1⟩

/-! Path-normalization facts for the idempotence claim. -/

theorem str_ne_empty_iff {s : String} : s ≠ "" ↔ s.data ≠ [] := by
  rw [not_iff_not]
  constructor
  · intro h
    rw [h]
  · intro h
    exact String.ext h

theorem isAbs_ne_empty {s : String} (h : isAbs s = true) : s ≠ "" := by
  rw [str_ne_empty_iff]
  intro hd
  unfold isAbs at h
  rw [hd] at h
  cases h

theorem append_ne_empty {a b : String} (h : a ≠ "") : a ++ b ≠ "" := by
  rw [str_ne_empty_iff] at h ⊢
  rw [String.data_append]
  intro hc
  exact h (List.append_eq_nil.mp hc).1

theorem isAbs_append {a b : String} (h : a ≠ "") : isAbs (a ++ b) = isAbs a := by
  rw [str_ne_empty_iff] at h
  unfold isAbs
  rw [String.data_append]
  cases hd : a.data with
  | nil => exact absurd hd h
  | cons c rest => rfl

theorem absolutize_of_abs {cwd p : String} (h : isAbs p = true) :
    absolutize cwd p = p := by
  unfold absolutize
  rw [if_pos h]

theorem isAbs_absolutize {cwd p : String} (hcwd : isAbs cwd = true) :
    isAbs (absolutize cwd p) = true := by
  unfold absolutize
  by_cases hp : isAbs p = true
  · rw [if_pos hp]
    exact hp
  · rw [if_neg hp]
    by_cases he : p = ""
    · rw [if_pos he]
      exact hcwd
    · rw [if_neg he]
      rw [isAbs_append (append_ne_empty (isAbs_ne_empty hcwd)),
        isAbs_append (isAbs_ne_empty hcwd)]
      exact hcwd

theorem absolutize_pathJoin {cwd b s : String} (hcwd : isAbs cwd = true)
    (hs1 : s ≠ "") (hs2 : isAbs s = false) :
    absolutize cwd (pathJoin b s) = pathJoin (absolutize cwd b) s := by
  by_cases hb : b = ""
  · subst hb
    have h0 : absolutize cwd "" = cwd := by
      unfold absolutize
      rw [if_neg (show ¬(isAbs ("" : String) = true) by decide), if_pos rfl]
    rw [show pathJoin "" s = s from rfl, h0]
    have h2 : pathJoin cwd s = cwd ++ "/" ++ s := by
      unfold pathJoin
      rw [if_neg (isAbs_ne_empty hcwd)]
    rw [h2]
    unfold absolutize
    rw [if_neg (show ¬(isAbs s = true) by simp [hs2]), if_neg hs1]
  · have hbs : b ++ "/" ++ s ≠ "" := append_ne_empty (append_ne_empty hb)
    have hjoin : pathJoin b s = b ++ "/" ++ s := by
      unfold pathJoin
      rw [if_neg hb]
    rw [hjoin]
    by_cases habs : isAbs b = true
    · have h1 : isAbs (b ++ "/" ++ s) = true := by
        rw [show b ++ "/" ++ s = b ++ ("/" ++ s) from (String.append_assoc b "/" s),
          isAbs_append hb]
        exact habs
      rw [absolutize_of_abs h1, absolutize_of_abs habs]
      unfold pathJoin
      rw [if_neg hb]
    · have habs' : isAbs b = false := by
        cases hi : isAbs b with
        | true => exact absurd hi habs
        | false => rfl
      have h1 : isAbs (b ++ "/" ++ s) = false := by
        rw [show b ++ "/" ++ s = b ++ ("/" ++ s) from (String.append_assoc b "/" s),
          isAbs_append hb]
        exact habs'
      unfold absolutize
      rw [h1]
      simp only [Bool.false_eq_true, if_false, if_neg hbs]
      rw [if_neg (show ¬(isAbs b = true) by rw [habs']; decide), if_neg hb]
      unfold pathJoin
      rw [if_neg (append_ne_empty (append_ne_empty (isAbs_ne_empty hcwd)))]
      simp [String.append_assoc]

/-! Step idempotence: re-resolving from the cache a successful run wrote
reproduces the same selection. -/

theorem resolveProducts_idem {doc : ConfigDoc} {cur uaProds ps : List String}
    (h : resolveProducts doc cur uaProds = .ok ps) :
    resolveProducts doc ps uaProds = .ok ps := by
  by_cases he : uaProds.isEmpty = true
  · unfold resolveProducts at h ⊢
    rw [if_pos he] at h ⊢
  · have hne : uaProds.isEmpty = false := by
      cases hi : uaProds.isEmpty with
      | true => exact absurd hi he
      | false => rfl
    simp only [resolveProducts, hne, Bool.false_eq_true, if_false] at h ⊢
    cases hf : (sortedUnique ((uaProds.map splitWs).flatten)).find?
        (fun p => (lookupProduct doc p).isNone) with
    | none =>
      rw [hf] at h
      exact h
    | some q =>
      rw [hf] at h
      cases h

theorem resolveMode_idem {doc : ConfigDoc} {cur mo uam : Option String}
    (h : resolveMode doc cur uam = .ok mo) :
    resolveMode doc mo uam = .ok mo := by
  unfold resolveMode at h ⊢
  cases uam with
  | none => cases h; rfl
  | some m =>
    dsimp only at h ⊢
    by_cases hm : m = ""
    · rw [if_pos hm] at h ⊢
    · rw [if_neg hm] at h ⊢
      by_cases hk : (lookupMode doc m).isSome = true
      · rw [if_pos hk] at h ⊢
        exact h
      · rw [if_neg hk] at h
        cases h

theorem resolveSite_idem {doc : ConfigDoc} {cur st uas : Option String}
    (h : resolveSite doc cur uas = .ok st) :
    resolveSite doc st uas = .ok st := by
  unfold resolveSite at h ⊢
  cases uas with
  | none => cases h; rfl
  | some s =>
    dsimp only at h ⊢
    by_cases hs : s = ""
    · rw [if_pos hs] at h ⊢
    · rw [if_neg hs] at h ⊢
      by_cases hk : (lookupSite doc s).isSome = true
      · rw [if_pos hk] at h ⊢
        exact h
      · rw [if_neg hk] at h
        cases h

theorem resolveVersion_idem {doc : ConfigDoc} {init : Bool} {cur vs : String}
    {uav : Option String}
    (h : resolveVersion doc init cur uav = .ok vs) :
    resolveVersion doc init vs uav = .ok vs := by
  unfold resolveVersion at h ⊢
  cases uav with
  | none => cases h; rfl
  | some v =>
    dsimp only at h ⊢
    by_cases hv : v = ""
    · rw [if_pos hv] at h ⊢
    · rw [if_neg hv] at h ⊢
      cases init with
      | true =>
        simp only [if_true] at h ⊢
        by_cases hk : v = "default" ∨ (lookupVersion doc v).isSome = true
        · rw [if_pos hk] at h ⊢
          exact h
        · rw [if_neg hk] at h
          cases h
      | false =>
        simp only [Bool.false_eq_true, if_false] at h ⊢
        by_cases hc : v = cur
        · rw [if_pos hc] at h
          cases h
          rw [if_pos hc]
        · rw [if_neg hc] at h
          cases h

theorem resolveBuildDir_run2 {init : Bool} {cur : String} {uab : Option String} {bd : String}
    (h : resolveBuildDir init cur uab = .ok bd) (cur' : String) :
    resolveBuildDir init cur' uab = .ok (if truthy uab = true then bd else cur') := by
  unfold resolveBuildDir at h ⊢
  cases uab with
  | none =>
    simp only [truthy]
    rfl
  | some b =>
    dsimp only at h ⊢
    by_cases hb : b = ""
    · subst hb
      simp only [truthy]
      rfl
    · rw [if_neg hb] at h ⊢
      cases init with
      | true =>
        simp only [if_true] at h ⊢
        cases h
        have ht : truthy (some bd) = true := by
          simp [truthy, hb]
        rw [ht]
        simp
      | false =>
        simp only [Bool.false_eq_true, if_false] at h
        cases h

theorem bindActual_init_irrel (doc : ConfigDoc) (a a' v : String) (ps : List String) :
    bindActual doc true a v ps = bindActual doc true a' v ps := by
  simp [bindActual]

theorem bindActual_idem {doc : ConfigDoc} {init : Bool} {a vs : String} {ps : List String}
    {av : String}
    (h : bindActual doc init a vs ps = .ok av) :
    bindActual doc init av vs ps = .ok av := by
  by_cases hv : vs = "default"
  · subst hv
    cases init with
    | true => rw [bindActual_init_irrel doc av a "default" ps]; exact h
    | false =>
      rw [bindActual_default_ok] at h ⊢
      simp only [Bool.false_eq_true, if_false] at h ⊢
      have hava : av = a := Option.some.inj (bindSeed_some_ok.mp h).1
      rw [hava] at h ⊢
      exact h
  · simp only [bindActual, if_neg hv] at h ⊢
    exact h

theorem checkModeSet_inv {mo : Option String} {mode : String}
    (h : checkModeSet mo = .ok mode) : mo = some mode ∧ mode ≠ "" := by
  unfold checkModeSet at h
  cases mo with
  | none => cases h
  | some m =>
    dsimp only at h
    by_cases hm : m = ""
    · rw [if_pos hm] at h
      cases h
    · rw [if_neg hm] at h
      cases h
      exact ⟨rfl, hm⟩

theorem checkSiteSet_inv {st : Option String} {site : String}
    (h : checkSiteSet st = .ok site) : st = some site ∧ site ≠ "" := by
  unfold checkSiteSet at h
  cases st with
  | none => cases h
  | some s =>
    dsimp only at h
    by_cases hs : s = ""
    · rw [if_pos hs] at h
      cases h
    · rw [if_neg hs] at h
      cases h
      exact ⟨rfl, hs⟩

/-- Re-resolving against the cache written by a successful run yields
the same selection, with the build directory possibly replaced by its
absolutized spelling. -/
theorem resolve_idem {doc : ConfigDoc} {cache : Cache} {sa : SysArgs} {ua : UserArgs}
    {r : Resolved} (h : resolve doc cache sa ua = .ok r) :
    resolve doc (cacheOf sa r) sa ua
      = .ok { r with buildDir := if truthy ua.buildDir = true then r.buildDir else absolutize sa.cwd r.buildDir } := by
  obtain ⟨ps, mo, st, vs, bd, mode, site, av, ve, h1, h2, h3, h4, h5, h6, h7, h8, h9,
    h10, h11, hr⟩ := resolve_ok_inv h
  subst hr
  obtain ⟨hmo, hmne⟩ := checkModeSet_inv h7
  obtain ⟨hst, hsne⟩ := checkSiteSet_inv h8
  have e1 : resolveProducts doc ps ua.products = .ok ps := resolveProducts_idem h1
  have e2 : resolveMode doc (some mode) ua.mode = .ok mo := by
    rw [← hmo]
    exact resolveMode_idem h2
  have e3 : resolveSite doc (some site) ua.site = .ok st := by
    rw [← hst]
    exact resolveSite_idem h3
  have e4 : resolveVersion doc sa.init vs ua.version = .ok vs := resolveVersion_idem h4
  have e5 : resolveBuildDir sa.init (absolutize sa.cwd bd) ua.buildDir
      = .ok (if truthy ua.buildDir = true then bd else absolutize sa.cwd bd) :=
    resolveBuildDir_run2 h5 _
  have e9 : bindActual doc sa.init av vs ps = .ok av := bindActual_idem h9
  unfold resolve
  have hc1 : curProductsOf doc (cacheOf sa
      ⟨ps, mode, site, vs, av, bd, wrFlag sa ua, ve⟩) = ps := rfl
  have hc2 : curModeOf doc (cacheOf sa
      ⟨ps, mode, site, vs, av, bd, wrFlag sa ua, ve⟩) = some mode := rfl
  have hc3 : curSiteOf doc (cacheOf sa
      ⟨ps, mode, site, vs, av, bd, wrFlag sa ua, ve⟩) = some site := rfl
  have hc4 : curVersionOf (cacheOf sa
      ⟨ps, mode, site, vs, av, bd, wrFlag sa ua, ve⟩) = vs := rfl
  have hc5 : curBuildDirOf doc (cacheOf sa
      ⟨ps, mode, site, vs, av, bd, wrFlag sa ua, ve⟩) = absolutize sa.cwd bd := rfl
  have hc6 : curActualOf (cacheOf sa
      ⟨ps, mode, site, vs, av, bd, wrFlag sa ua, ve⟩) = av := rfl
  rw [hc1, hc2, hc3, hc4, hc5, hc6]
  simp only [e1, e2, e3, e4, e5, h6, h7, h8, e9, h10, h11, Except.bind]

/-- The cache file entry is among the files of every write phase run
with caching enabled. -/
theorem emit_cache_mem {doc : ConfigDoc} {r : Resolved} {sa : SysArgs} {ua : UserArgs}
    (h : ua.noConfig = false) :
    (cachePath doc sa, FileData.yaml (cacheOf sa r)) ∈ (emit doc r sa ua).files := by
  unfold emit
  rw [h]
  dsimp only
  by_cases hwr : r.wr = true
  · simp only [hwr, eq_self_iff_true, if_true]
    cases lookupSite doc r.site with
    | none => simp
    | some stE =>
      cases lookupMode doc r.mode with
      | none => simp
      | some mdE =>
        by_cases hinit : sa.init = true
        · simp [hinit]
        · simp [hinit]
  · simp [hwr]

/-- The write phase emits path-normalized-identical files for two
resolved selections differing only in the spelling of the build
directory (same absolutized value). -/
theorem emit_norm (doc : ConfigDoc) (r1 : Resolved) (bd2 : String) (sa : SysArgs)
    (ua : UserArgs)
    (hcwd : isAbs sa.cwd = true)
    (habs : absolutize sa.cwd bd2 = absolutize sa.cwd r1.buildDir) :
    normFiles sa.cwd (emit doc { r1 with buildDir := bd2 } sa ua).files
      = normFiles sa.cwd (emit doc r1 sa ua).files := by
  have hkey : ∀ s : String, s ≠ "" → isAbs s = false →
      absolutize sa.cwd (pathJoin bd2 s) = absolutize sa.cwd (pathJoin r1.buildDir s) := by
    intro s hs1 hs2
    rw [absolutize_pathJoin hcwd hs1 hs2, absolutize_pathJoin hcwd hs1 hs2, habs]
  have hprodkey : ∀ x : String,
      ("conf/multiconfig/product-" ++ x ++ ".conf") ≠ "" ∧
        isAbs ("conf/multiconfig/product-" ++ x ++ ".conf") = false := by
    intro x
    have hA : ("conf/multiconfig/product-" : String) ≠ "" := by decide
    refine ⟨append_ne_empty (append_ne_empty hA), ?_⟩
    rw [isAbs_append (append_ne_empty hA), isAbs_append hA]
    decide
  have hinitL : initLines { r1 with buildDir := bd2 } sa = initLines r1 sa := rfl
  have henv : envFileContent doc { r1 with buildDir := bd2 } sa
      = envFileContent doc r1 sa := by
    unfold envFileContent
    dsimp only
    rw [habs, hinitL]
  have hcache : cacheOf sa { r1 with buildDir := bd2 } = cacheOf sa r1 := by
    unfold cacheOf
    dsimp only
    rw [habs]
  have hsiteC : ∀ stE mdE, siteConfContent doc { r1 with buildDir := bd2 } stE mdE
      = siteConfContent doc r1 stE mdE := fun _ _ => rfl
  have hbb : bblayersContent doc { r1 with buildDir := bd2 } = bblayersContent doc r1 := rfl
  unfold emit
  dsimp only
  rw [henv, hcache]
  cases hwr : r1.wr with
  | true =>
    rw [hwr] at hsiteC hbb
    simp only [eq_self_iff_true, if_true]
    cases hsl : lookupSite doc r1.site with
    | none =>
      dsimp only
      simp only [normFiles, List.map_append]
      congr 1
      simp only [List.map_cons, List.map_nil]
      rw [hkey "conf/site.conf" (by decide) (by decide)]
    | some stE =>
      dsimp only
      cases hml : lookupMode doc r1.mode with
      | none =>
        dsimp only
        simp only [normFiles, List.map_append]
        congr 1
        simp only [List.map_cons, List.map_nil]
        rw [hkey "conf/site.conf" (by decide) (by decide)]
      | some mdE =>
        dsimp only
        rw [apply_ite RunOutput.files, apply_ite RunOutput.files, ite_self, ite_self]
        rw [hsiteC stE mdE, hbb]
        simp only [normFiles, List.map_append]
        congr 1
        · congr 1
          · congr 1
            simp only [List.map_cons, List.map_nil]
            rw [hkey "conf/site.conf" (by decide) (by decide)]
          · simp only [List.map_map]
            apply List.map_congr_left
            intro np _
            simp only [Function.comp]
            rw [hkey _ (hprodkey np.1).1 (hprodkey np.1).2]
        · simp only [List.map_cons, List.map_nil]
          rw [hkey "conf/bblayers.conf" (by decide) (by decide)]
  | false =>
    simp only [Bool.false_eq_true, if_false]

/-- C9: for all valid inputs, running configure twice with identical CLI
arguments and an untouched cache produces byte-identical output
artifacts: the first run rewrites the cache with the resolved selection,
and a second run reading that cache emits the same files (paths compared
after absolutization, since the default build directory is a relative
spelling of the same location). -/
theorem c9_idempotent (doc : ConfigDoc) (disk : Option Cache) (sa : SysArgs)
    (ua : UserArgs) (r1 : Resolved)
    (hl : ua.list = false) (hnc : ua.noConfig = false) (hcwd : isAbs sa.cwd = true)
    (hres : resolve doc (readCache ua.noConfig disk) sa ua = .ok r1) :
    (cachePath doc sa, FileData.yaml (cacheOf sa r1)) ∈ (configure doc disk sa ua).files ∧
    normFiles sa.cwd (configure doc (some (cacheOf sa r1)) sa ua).files
      = normFiles sa.cwd (configure doc disk sa ua).files := by
  have hcfg1 : configure doc disk sa ua = emit doc r1 sa ua :=
    configure_of_resolve_ok hl hres
  have hread2 : readCache ua.noConfig (some (cacheOf sa r1)) = cacheOf sa r1 := by
    rw [hnc]
    rfl
  have hres2 : resolve doc (readCache ua.noConfig (some (cacheOf sa r1))) sa ua
      = .ok { r1 with buildDir := if truthy ua.buildDir = true then r1.buildDir else absolutize sa.cwd r1.buildDir } := by
    rw [hread2]
    exact resolve_idem hres
  have hcfg2 : configure doc (some (cacheOf sa r1)) sa ua
      = emit doc { r1 with buildDir := if truthy ua.buildDir = true then r1.buildDir else absolutize sa.cwd r1.buildDir } sa ua :=
    configure_of_resolve_ok hl hres2
  rw [hcfg1, hcfg2]
  refine ⟨emit_cache_mem hnc, ?_⟩
  have habs : absolutize sa.cwd
      (if truthy ua.buildDir = true then r1.buildDir else absolutize sa.cwd r1.buildDir)
      = absolutize sa.cwd r1.buildDir := by
    by_cases ht : truthy ua.buildDir = true
    · rw [if_pos ht]
    · rw [if_neg ht]
      exact absolutize_of_abs (isAbs_absolutize hcwd)
  exact emit_norm doc r1 _ sa ua hcwd habs

/-- C9 witness: the docW/cacheW non-init run, repeated against the cache
it wrote, emits the same artifact set. -/
theorem c9_witness :
    (cachePath docW saRun, FileData.yaml (cacheOf saRun rW))
        ∈ (configure docW (some cacheW) saRun { write := true }).files ∧
    normFiles saRun.cwd
        (configure docW (some (cacheOf saRun rW)) saRun { write := true }).files
      = normFiles saRun.cwd (configure docW (some cacheW) saRun { write := true }).files :=
  c9_idempotent docW (some cacheW) saRun { write := true } rW rfl rfl (by decide) (by decide)

end Whisk
